import Mathlib

/-!
# Verification of the EBS-Project content-based pub/sub matching engine

Shallow embedding of `src/common/subscription_matcher.py` (classes
`WindowManager` and `SubscriptionMatcher`) and the event-handling entry
point of `src/brokers/broker.py` (`EcommerceBroker._handle_event`).

Modelling conventions:
* Python floats are modelled as exact rationals (`ℚ`); all arithmetic in
  the matcher path (mean, max, min, sum, comparisons, the `0.01`
  tolerance) is carried out exactly.
* Python exceptions are modelled with `Except String`; a raised exception
  carries the exception kind as a string.  On an error the model returns
  only the error value; in-place mutations performed before the raise are
  not observable through the model (no claim inspects post-error window
  state).
* Python `dict`s (which preserve insertion order, update values in place
  and append fresh keys) are modelled as association lists with
  `dictInsert` / `dictErase` / `dictGet`.
* `float(s)` on strings is modelled by `pyFloat`, a parser for optionally
  signed decimal literals with surrounding whitespace.  No claim depends
  on the exact language accepted, only on success/failure behaviour.
-/

namespace EBS

/-! ## Association-list model of Python dict -/

def dictContains {α : Type} (d : List (String × α)) (k : String) : Bool :=
  d.any (fun p => p.1 == k)

def dictGet {α : Type} (d : List (String × α)) (k : String) : Option α :=
  (d.find? (fun p => p.1 == k)).map (·.2)

def dictInsert {α : Type} (d : List (String × α)) (k : String) (v : α) :
    List (String × α) :=
  if dictContains d k then d.map (fun p => if p.1 == k then (k, v) else p)
  else d ++ [(k, v)]

def dictErase {α : Type} (d : List (String × α)) (k : String) :
    List (String × α) :=
  d.filter (fun p => p.1 != k)

/-! ## Model of Python `float(string)` -/

/-- Fold a digit list into a natural number (digits are already checked). -/
def digitsToNat (cs : List Char) : Nat :=
  cs.foldl (fun n c => 10 * n + (c.toNat - 48)) 0

/-- Split at the first `'.'`: the characters before it and, when a dot is
present, the characters after it. -/
def splitDot : List Char → List Char × Option (List Char)
  | [] => ([], none)
  | c :: cs =>
      if c = '.' then ([], some cs)
      else
        let r := splitDot cs
        (c :: r.1, r.2)

/-- Parse an unsigned decimal literal `digits`, `digits.digits`,
`digits.` or `.digits` into a rational (a second dot makes the fractional
part fail the digit check, as in Python). -/
def parseUnsigned (cs : List Char) : Option ℚ :=
  match splitDot cs with
  | (a, none) =>
      if a ≠ [] ∧ a.all Char.isDigit then some ((digitsToNat a : ℚ))
      else none
  | (a, some b) =>
      if (a ≠ [] ∨ b ≠ []) ∧ a.all Char.isDigit ∧ b.all Char.isDigit then
        some ((digitsToNat a : ℚ) + (digitsToNat b : ℚ) / ((10 : ℚ) ^ b.length))
      else none

/-- Strip leading and trailing whitespace from a character list. -/
def trimChars (cs : List Char) : List Char :=
  ((cs.dropWhile Char.isWhitespace).reverse.dropWhile Char.isWhitespace).reverse

/-- Model of Python `float(s)` for strings: optional sign, decimal
literal, surrounding whitespace; failure is `none`. -/
def pyFloat (s : String) : Option ℚ :=
  match trimChars s.data with
  | '+' :: rest => parseUnsigned rest
  | '-' :: rest => (parseUnsigned rest).map (fun q => -q)
  | cs => parseUnsigned cs

/-- Remove every occurrence of `pat` from the character list (model of
Python `str.replace(pat, "")` as used in `_extract_numeric_value`; the
fuel argument makes the recursion structural and is instantiated with the
length of the input, which suffices because the patterns used are
nonempty). -/
def stripPatAux (pat : List Char) : Nat → List Char → List Char
  | 0, cs => cs
  | _ + 1, [] => []
  | n + 1, c :: cs =>
      if pat.isPrefixOf (c :: cs) then stripPatAux pat n ((c :: cs).drop pat.length)
      else c :: stripPatAux pat n cs

/-- Model of Python `s.replace(pat, "")`. -/
def pyRemove (s pat : String) : String :=
  ⟨stripPatAux pat.data s.data.length s.data⟩

/-! ## Event model (`protos/ecommerce_pb2`, fields used by the matcher) -/

structure PurchaseEvent where
  user_id : String
  product_id : String
  category : String
  price : ℚ
  quantity : ℚ
  warehouse_id : String
deriving DecidableEq, Repr

structure ProductViewEvent where
  user_id : String
  product_id : String
  category : String
  view_duration : ℚ
  source : String
deriving DecidableEq, Repr

structure InventoryUpdateEvent where
  product_id : String
  category : String
  stock_level : ℚ
  warehouse_id : String
  operation : String
deriving DecidableEq, Repr

structure UserRatingEvent where
  user_id : String
  product_id : String
  category : String
  rating : ℚ
  review_text : String
deriving DecidableEq, Repr

/-- An event is exactly one variant payload, tagged (the proto carries an
`event_type` tag and a oneof payload). -/
inductive EcommerceEvent
  | purchase (p : PurchaseEvent)
  | productView (p : ProductViewEvent)
  | inventoryUpdate (p : InventoryUpdateEvent)
  | userRating (p : UserRatingEvent)
deriving DecidableEq, Repr

/-- A field value extracted from an event: proto string fields give
strings, proto numeric fields give numbers. -/
inductive FieldValue
  | str (s : String)
  | num (q : ℚ)
deriving DecidableEq, Repr

/-! ## Predicate model -/

/-- Comparison operators (proto ordinals EQUAL=0, NOT_EQUAL=1,
GREATER_THAN=2, LESS_THAN=3, GREATER_EQUAL=4, LESS_EQUAL=5). -/
inductive Operator
  | EQUAL
  | NOT_EQUAL
  | GREATER_THAN
  | LESS_THAN
  | GREATER_EQUAL
  | LESS_EQUAL
deriving DecidableEq, Repr

structure FilterCondition where
  field_name : String
  operator : Operator
  value : String
  is_windowed : Bool
deriving DecidableEq, Repr

inductive SubscriptionType
  | SIMPLE
  | COMPLEX
deriving DecidableEq, Repr

structure WindowConfig where
  window_size : Nat
  aggregation_type : String
deriving DecidableEq, Repr

structure Subscription where
  subscription_id : String
  subscriber_id : String
  type : SubscriptionType
  conditions : List FilterCondition
  window_config : WindowConfig
deriving DecidableEq, Repr

/-! ## Field extraction (`SubscriptionMatcher._extract_field_value`) -/

def extract_field_value : EcommerceEvent → String → Option FieldValue
  | .purchase p, name =>
      if name = "user_id" then some (.str p.user_id)
      else if name = "product_id" then some (.str p.product_id)
      else if name = "category" then some (.str p.category)
      else if name = "price" then some (.num p.price)
      else if name = "quantity" then some (.num p.quantity)
      else if name = "warehouse_id" then some (.str p.warehouse_id)
      else none
  | .productView p, name =>
      if name = "user_id" then some (.str p.user_id)
      else if name = "product_id" then some (.str p.product_id)
      else if name = "category" then some (.str p.category)
      else if name = "view_duration" then some (.num p.view_duration)
      else if name = "source" then some (.str p.source)
      else none
  | .inventoryUpdate p, name =>
      if name = "product_id" then some (.str p.product_id)
      else if name = "category" then some (.str p.category)
      else if name = "stock_level" then some (.num p.stock_level)
      else if name = "warehouse_id" then some (.str p.warehouse_id)
      else if name = "operation" then some (.str p.operation)
      else none
  | .userRating p, name =>
      if name = "user_id" then some (.str p.user_id)
      else if name = "product_id" then some (.str p.product_id)
      else if name = "category" then some (.str p.category)
      else if name = "rating" then some (.num p.rating)
      else if name = "review_text" then some (.str p.review_text)
      else none

/-- Python `float(x)` applied to an extracted field value: identity on
numbers, string parsing on strings (`none` models the caught
`ValueError`/`TypeError`). -/
def coerceFloat : FieldValue → Option ℚ
  | .num q => some q
  | .str s => pyFloat s

/-- Python `str(x)` applied to an extracted field value.  String fields
are returned unchanged; for numeric fields a rendering is irrelevant to
every claim because the numeric-named fields are exactly the numerically
typed ones (`extract_str_on_nonNumeric` below), so this branch is
unreachable on extracted values. -/
def pyStr : FieldValue → String
  | .str s => s
  | .num q => toString q.num ++ "/" ++ toString q.den

/-- The field names coerced to float by `_evaluate_condition`. -/
def numericFieldNames : List String :=
  ["price", "stock_level", "rating", "quantity", "view_duration"]

/-- Embedding of `SubscriptionMatcher._extract_numeric_value`: strip the aggregation
prefixes from the field name, extract the base field, coerce to float. -/
def extract_numeric_value (event : EcommerceEvent) (field_name : String) :
    Option ℚ :=
  let base_field := pyRemove (pyRemove (pyRemove field_name "avg_") "max_") "min_"
  match extract_field_value event base_field with
  | none => none
  | some v => coerceFloat v

/-! ## Condition evaluation (`SubscriptionMatcher._evaluate_condition`) -/

def applyOpQ : Operator → ℚ → ℚ → Bool
  | .EQUAL, a, b => a == b
  | .NOT_EQUAL, a, b => a != b
  | .GREATER_THAN, a, b => decide (a > b)
  | .GREATER_EQUAL, a, b => decide (a ≥ b)
  | .LESS_THAN, a, b => decide (a < b)
  | .LESS_EQUAL, a, b => decide (a ≤ b)

def applyOpS : Operator → String → String → Bool
  | .EQUAL, a, b => a == b
  | .NOT_EQUAL, a, b => a != b
  | .GREATER_THAN, a, b => decide (a > b)
  | .GREATER_EQUAL, a, b => decide (a ≥ b)
  | .LESS_THAN, a, b => decide (a < b)
  | .LESS_EQUAL, a, b => decide (a ≤ b)

def evaluate_condition (event : EcommerceEvent) (cond : FilterCondition) :
    Bool :=
  match extract_field_value event cond.field_name with
  | none => false
  | some field_value =>
      if cond.field_name ∈ numericFieldNames then
        match coerceFloat field_value, pyFloat cond.value with
        | some a, some b => applyOpQ cond.operator a b
        | _, _ => false
      else
        applyOpS cond.operator (pyStr field_value) cond.value

/-- Embedding of `SubscriptionMatcher._evaluate_windowed_condition`: the `0.01` float
literal of the source is modelled as the exact rational `1/100`. -/
def evaluate_windowed_condition (aggregated_value : ℚ)
    (cond : FilterCondition) : Bool :=
  match pyFloat cond.value with
  | none => false
  | some condition_value =>
      match cond.operator with
      | .GREATER_THAN => decide (aggregated_value > condition_value)
      | .GREATER_EQUAL => decide (aggregated_value ≥ condition_value)
      | .LESS_THAN => decide (aggregated_value < condition_value)
      | .LESS_EQUAL => decide (aggregated_value ≤ condition_value)
      | .EQUAL => decide (|aggregated_value - condition_value| < 1 / 100)
      | .NOT_EQUAL => decide (|aggregated_value - condition_value| ≥ 1 / 100)

/-! ## Window manager (`WindowManager`) -/

structure WindowManager where
  window_size : Nat
  aggregation_type : String
  window : List ℚ
  is_full : Bool
deriving DecidableEq, Repr

/-- Python `deque(maxlen=n).append`: append on the right, dropping from
the left when over capacity. -/
def dequeAppend (maxlen : Nat) (buf : List ℚ) (v : ℚ) : List ℚ :=
  let b := buf ++ [v]
  b.drop (b.length - maxlen)

/-- Model of `statistics.mean`, raising `StatisticsError` on an empty sample. -/
def pyMean (l : List ℚ) : Except String ℚ :=
  if l.isEmpty then Except.error "StatisticsError" else Except.ok (l.sum / l.length)

/-- Python `max(list)`, raising `ValueError` on an empty list. -/
def pyMax (l : List ℚ) : Except String ℚ :=
  match l with
  | [] => Except.error "ValueError"
  | x :: xs => Except.ok (xs.foldl max x)

/-- Python `min(list)`, raising `ValueError` on an empty list. -/
def pyMin (l : List ℚ) : Except String ℚ :=
  match l with
  | [] => Except.error "ValueError"
  | x :: xs => Except.ok (xs.foldl min x)

/-- Embedding of `WindowManager._calculate_aggregation`. -/
def WindowManager.calculate_aggregation (wm : WindowManager) :
    Except String ℚ :=
  let values := wm.window
  if wm.aggregation_type = "avg" then pyMean values
  else if wm.aggregation_type = "max" then pyMax values
  else if wm.aggregation_type = "min" then pyMin values
  else if wm.aggregation_type = "sum" then Except.ok values.sum
  else pyMean values

/-- Embedding of `WindowManager.add_value`.  Returns the `(window_full, aggregated)`
pair together with the updated manager state. -/
def WindowManager.add_value (wm : WindowManager) (value : ℚ) :
    Except String ((Bool × Option ℚ) × WindowManager) :=
  let w : WindowManager :=
    { wm with window := dequeAppend wm.window_size wm.window value }
  if w.window.length = w.window_size then
    let w := { w with is_full := true }
    match w.calculate_aggregation with
    | Except.error e => Except.error e
    | Except.ok aggregated => Except.ok ((true, some aggregated), { w with window := [] })
  else
    Except.ok ((false, none), w)

/-! ## Notification model

The proto `Notification` also carries a `notification_id` and a
`timestamp` derived from the wall clock (`time.time()`); those two fields
are impure and irrelevant to every claim, so the embedding keeps the
subscription identity and the payload. -/

inductive NotificationBody
  | simple (matched_event : EcommerceEvent)
  | complexAgg (category : String) (field_name : String)
      (aggregated_value : ℚ) (window_size : Nat) (condition_met : Bool)
deriving DecidableEq, Repr

structure Notification where
  subscription_id : String
  subscriber_id : String
  body : NotificationBody
deriving DecidableEq, Repr

/-- Embedding of `SubscriptionMatcher._create_simple_notification`. -/
def create_simple_notification (event : EcommerceEvent)
    (s : Subscription) : Notification :=
  { subscription_id := s.subscription_id
    subscriber_id := s.subscriber_id
    body := .simple event }

/-- The category-extraction loop of
`SubscriptionMatcher._create_complex_notification`: the value of the
first condition on field `category` with operator `EQUAL`, else
`"unknown"`. -/
def notification_category (s : Subscription) : String :=
  match s.conditions.find?
      (fun c => c.field_name == "category" && c.operator == Operator.EQUAL) with
  | some c => c.value
  | none => "unknown"

/-- Embedding of `SubscriptionMatcher._create_complex_notification`. -/
def create_complex_notification (s : Subscription)
    (cond : FilterCondition) (aggregated_value : ℚ) : Notification :=
  { subscription_id := s.subscription_id
    subscriber_id := s.subscriber_id
    body := .complexAgg (notification_category s) cond.field_name
      aggregated_value s.window_config.window_size true }

/-! ## Matcher state (`SubscriptionMatcher.__init__`) -/

/-- The `window_managers` map: `subscription_id → field_name → WindowManager`. -/
abbrev WindowsMap := List (String × List (String × WindowManager))

structure SubscriptionMatcher where
  simple_subscriptions : List (String × Subscription)
  complex_subscriptions : List (String × Subscription)
  window_managers : WindowsMap
  subscription_contexts : List String
deriving DecidableEq, Repr

def SubscriptionMatcher.empty : SubscriptionMatcher :=
  { simple_subscriptions := []
    complex_subscriptions := []
    window_managers := []
    subscription_contexts := [] }

/-- The loop of `SubscriptionMatcher._setup_window_managers` building the
inner `field_name → WindowManager` dict: one fresh manager per windowed
condition. -/
def setup_windows_for (s : Subscription) : List (String × WindowManager) :=
  s.conditions.foldl
    (fun d c =>
      if c.is_windowed then
        dictInsert d c.field_name
          { window_size := s.window_config.window_size
            aggregation_type := s.window_config.aggregation_type
            window := []
            is_full := false }
      else d)
    []

/-- Model of the `subscription_contexts[id]` empty-dict assignment: the context dict's values are never
written, so only its key set is modelled; assigning a fresh key appends
it, re-assigning an existing key leaves the key set unchanged. -/
def ctxInsert (ctx : List String) (k : String) : List String :=
  if ctx.contains k then ctx else ctx ++ [k]

/-- Embedding of `SubscriptionMatcher._setup_window_managers`. -/
def SubscriptionMatcher.setup_window_managers (m : SubscriptionMatcher)
    (s : Subscription) : SubscriptionMatcher :=
  { m with
    window_managers := dictInsert m.window_managers s.subscription_id (setup_windows_for s)
    subscription_contexts := ctxInsert m.subscription_contexts s.subscription_id }

/-- Embedding of `SubscriptionMatcher.add_subscription`: no validation; SIMPLE goes to
the simple map, everything else to the complex map plus window setup. -/
def SubscriptionMatcher.add_subscription (m : SubscriptionMatcher)
    (s : Subscription) : SubscriptionMatcher :=
  if s.type = SubscriptionType.SIMPLE then
    { m with simple_subscriptions := dictInsert m.simple_subscriptions s.subscription_id s }
  else
    let m := { m with complex_subscriptions := dictInsert m.complex_subscriptions s.subscription_id s }
    m.setup_window_managers s

/-- Embedding of `SubscriptionMatcher.remove_subscription`. -/
def SubscriptionMatcher.remove_subscription (m : SubscriptionMatcher)
    (subscription_id : String) : SubscriptionMatcher :=
  if dictContains m.simple_subscriptions subscription_id then
    { m with simple_subscriptions := dictErase m.simple_subscriptions subscription_id }
  else if dictContains m.complex_subscriptions subscription_id then
    { m with
      complex_subscriptions := dictErase m.complex_subscriptions subscription_id
      window_managers := dictErase m.window_managers subscription_id
      subscription_contexts := m.subscription_contexts.filter (fun k => k != subscription_id) }
  else m

/-! ## Matching -/

/-- Embedding of `SubscriptionMatcher._match_simple_subscription`: logical AND over
all conditions. -/
def match_simple_subscription (event : EcommerceEvent)
    (s : Subscription) : Bool :=
  s.conditions.all (fun c => evaluate_condition event c)

/-- The non-windowed gate of `_match_complex_subscription`: the loop
skips windowed conditions and ANDs the rest. -/
def passes_gate (event : EcommerceEvent) (s : Subscription) : Bool :=
  s.conditions.all (fun c => c.is_windowed || evaluate_condition event c)

/-- One iteration of the windowed-condition loop of
`_match_complex_subscription`.  Missing window-manager entries model the
`KeyError` a dict subscript raises. -/
def process_windowed_condition (event : EcommerceEvent) (s : Subscription)
    (acc : List Notification × WindowsMap) (c : FilterCondition) :
    Except String (List Notification × WindowsMap) :=
  if c.is_windowed then
    match extract_numeric_value event c.field_name with
    | none => Except.ok acc
    | some value =>
        match dictGet acc.2 s.subscription_id with
        | none => Except.error "KeyError"
        | some inner =>
            match dictGet inner c.field_name with
            | none => Except.error "KeyError"
            | some wm =>
                match wm.add_value value with
                | Except.error e => Except.error e
                | Except.ok ((window_full, aggregated), wm') =>
                    match window_full, aggregated with
                    | true, some aggregated_value =>
                        if evaluate_windowed_condition aggregated_value c then
                          Except.ok
                            (acc.1 ++ [create_complex_notification s c aggregated_value],
                              dictInsert acc.2 s.subscription_id
                                (dictInsert inner c.field_name wm'))
                        else
                          Except.ok (acc.1,
                            dictInsert acc.2 s.subscription_id
                              (dictInsert inner c.field_name wm'))
                    | _, _ =>
                        Except.ok (acc.1,
                          dictInsert acc.2 s.subscription_id
                            (dictInsert inner c.field_name wm'))
  else Except.ok acc

/-- Embedding of `SubscriptionMatcher._match_complex_subscription`.  The method reads
and mutates only `self.window_managers`, so the embedding threads that
map. -/
def match_complex_subscription (wms : WindowsMap)
    (event : EcommerceEvent) (s : Subscription) :
    Except String (List Notification × WindowsMap) :=
  if passes_gate event s then
    s.conditions.foldlM (process_windowed_condition event s) ([], wms)
  else Except.ok ([], wms)

/-- One iteration of the simple-subscription loop of `match_event`. -/
def simple_step (event : EcommerceEvent) (acc : List Notification)
    (p : String × Subscription) : List Notification :=
  if match_simple_subscription event p.2 then
    acc ++ [create_simple_notification event p.2]
  else acc

/-- One iteration of the complex-subscription loop of `match_event`. -/
def complex_step (event : EcommerceEvent)
    (acc : List Notification × WindowsMap) (p : String × Subscription) :
    Except String (List Notification × WindowsMap) :=
  match match_complex_subscription acc.2 event p.2 with
  | Except.error e => Except.error e
  | Except.ok (ns, wms') => Except.ok (acc.1 ++ ns, wms')

/-- Embedding of `SubscriptionMatcher.match_event`: simple subscriptions first, then
complex subscriptions, appending in registry-iteration order. -/
def match_event (m : SubscriptionMatcher) (event : EcommerceEvent) :
    Except String (List Notification × SubscriptionMatcher) :=
  match m.complex_subscriptions.foldlM (complex_step event)
      ([], m.window_managers) with
  | Except.error e => Except.error e
  | Except.ok (complex_notifs, wms') =>
      Except.ok (m.simple_subscriptions.foldl (simple_step event) [] ++ complex_notifs,
        { m with window_managers := wms' })

/-- Embedding of `EcommerceBroker._handle_event`: matches the event and dispatches
every returned notification; any exception is caught and logged, after
which nothing is dispatched for this event.  Returns the dispatched
notifications and the resulting matcher state. -/
def handle_event (m : SubscriptionMatcher) (event : EcommerceEvent) :
    List Notification × SubscriptionMatcher :=
  match match_event m event with
  | Except.ok (notifications, m') => (notifications, m')
  | Except.error _ => ([], m)

/-- Iterated matching: a sequence of `match_event` calls threading the
matcher state and concatenating the emitted notifications (the harness
over which the trace claims quantify). -/
def run_step (acc : List Notification × SubscriptionMatcher)
    (e : EcommerceEvent) :
    Except String (List Notification × SubscriptionMatcher) :=
  match match_event acc.2 e with
  | Except.error err => Except.error err
  | Except.ok (ns, m') => Except.ok (acc.1 ++ ns, m')

def run_events (m : SubscriptionMatcher) (events : List EcommerceEvent) :
    Except String (List Notification × SubscriptionMatcher) :=
  events.foldlM run_step ([], m)

/-! ## Lexicographic string order -/

/-- Lexicographic comparison of character lists by the first differing
code point. -/
def lexLt : List Char → List Char → Bool
  | [], [] => false
  | [], _ :: _ => true
  | _ :: _, [] => false
  | a :: as, b :: bs =>
      if a < b then true else if b < a then false else lexLt as bs

/-! ## Spec-side definitions (from the words of the specification, for
refinement comparisons) -/

/-- The aggregation types the spec recognizes. -/
def recognizedAggregations : List String := ["avg", "max", "min", "sum"]

/-- Spec-side aggregate of a full sample: arithmetic mean for `avg`,
maximum for `max`, minimum for `min`, arithmetic sum for `sum`, and the
mean again for anything unrecognized. -/
def aggregateSpec (ty : String) (l : List ℚ) : ℚ :=
  if ty = "avg" then l.sum / l.length
  else if ty = "max" then
    match l with
    | [] => 0
    | x :: xs => xs.foldl max x
  else if ty = "min" then
    match l with
    | [] => 0
    | x :: xs => xs.foldl min x
  else if ty = "sum" then l.sum
  else l.sum / l.length

/-- Post-aggregation comparison per the spec's words: ordering operators
compare the aggregate and the parsed value directly; equality uses the
absolute tolerance `1e-2`. -/
def windowedCompareSpec (op : Operator) (a cv : ℚ) : Bool :=
  match op with
  | .EQUAL => decide (|a - cv| < 1 / 100)
  | .NOT_EQUAL => !decide (|a - cv| < 1 / 100)
  | .GREATER_THAN => decide (a > cv)
  | .GREATER_EQUAL => decide (a ≥ cv)
  | .LESS_THAN => decide (a < cv)
  | .LESS_EQUAL => decide (a ≤ cv)

/-! ## Spec-side condition evaluation (claim C4) -/

def numericCompareSpec (op : Operator) (a b : ℚ) : Bool :=
  match op with
  | .EQUAL => decide (a = b)
  | .NOT_EQUAL => decide (a ≠ b)
  | .GREATER_THAN => decide (a > b)
  | .GREATER_EQUAL => decide (a ≥ b)
  | .LESS_THAN => decide (a < b)
  | .LESS_EQUAL => decide (a ≤ b)

/-- String comparison with the ordering operators evaluated
lexicographically via `lexLt` (first differing code point). -/
def stringCompareSpec (op : Operator) (a b : String) : Bool :=
  match op with
  | .EQUAL => decide (a = b)
  | .NOT_EQUAL => decide (a ≠ b)
  | .GREATER_THAN => lexLt b.data a.data
  | .GREATER_EQUAL => !lexLt a.data b.data
  | .LESS_THAN => lexLt a.data b.data
  | .LESS_EQUAL => !lexLt b.data a.data

/-- Condition evaluation as the spec words it: an undefined field gives
`false`; the five numeric field names parse both sides as floats with
parse failure giving `false`; every other field name compares as strings
with lexicographic ordering operators. -/
def evaluate_condition_spec (event : EcommerceEvent)
    (cond : FilterCondition) : Bool :=
  match extract_field_value event cond.field_name with
  | none => false
  | some fv =>
      if cond.field_name ∈ numericFieldNames then
        match coerceFloat fv, pyFloat cond.value with
        | some a, some b => numericCompareSpec cond.operator a b
        | _, _ => false
      else stringCompareSpec cond.operator (pyStr fv) cond.value

/-! ## Characterization of the matching folds -/

/-- The simple-subscription part of one `match_event` call, as the spec
words it: registry-iteration order, one notification per fully matching
simple subscription. -/
def simple_matches (m : SubscriptionMatcher) (event : EcommerceEvent) :
    List Notification :=
  (m.simple_subscriptions.filter
      (fun p => match_simple_subscription event p.2)).map
    (fun p => create_simple_notification event p.2)

/-! ## Concrete instances used by the witnesses -/

def exSimpleSub : Subscription :=
  ⟨"S1", "B1", SubscriptionType.SIMPLE,
    [⟨"category", Operator.EQUAL, "Electronics", false⟩], ⟨1, "avg"⟩⟩

def exEvent : EcommerceEvent :=
  .purchase ⟨"u1", "p1", "Electronics", 750, 1, "w1"⟩

def exMatcherSimple : SubscriptionMatcher :=
  { simple_subscriptions := [("S1", exSimpleSub)]
    complex_subscriptions := []
    window_managers := []
    subscription_contexts := [] }

def exComplexSub : Subscription :=
  ⟨"C1", "B2", SubscriptionType.COMPLEX,
    [⟨"category", Operator.EQUAL, "Clothing", false⟩,
      ⟨"avg_price", Operator.GREATER_THAN, "100", true⟩], ⟨2, "avg"⟩⟩

def exMatcherBoth : SubscriptionMatcher :=
  { simple_subscriptions := [("S1", exSimpleSub)]
    complex_subscriptions := [("C1", exComplexSub)]
    window_managers := [("C1", [("avg_price", ⟨2, "avg", [], false⟩)])]
    subscription_contexts := ["C1"] }

def exMatchAllSub : Subscription :=
  ⟨"A", "BA", SubscriptionType.SIMPLE, [], ⟨1, "avg"⟩⟩

def exRatingEvent : EcommerceEvent :=
  .userRating ⟨"u", "p", "E", 5, "great"⟩

/-- A complex subscription whose window size 0 makes its window fire on
an empty sample, so the aggregation raises (`statistics.mean([])`). -/
def exPoisonSub : Subscription :=
  ⟨"C0", "B0", SubscriptionType.COMPLEX,
    [⟨"avg_rating", Operator.GREATER_THAN, "0", true⟩], ⟨0, "avg"⟩⟩

def exPoisonMatcher : SubscriptionMatcher :=
  { simple_subscriptions := [("A", exMatchAllSub)]
    complex_subscriptions := [("C0", exPoisonSub)]
    window_managers := [("C0", [("avg_rating", ⟨0, "avg", [], false⟩)])]
    subscription_contexts := ["C0"] }

/-! ## Claim C10 -/

/-- The notifications counted by C10: simple-bodied and carrying the
given subscription id. -/
def is_simple_notification_for (sid : String) (n : Notification) : Bool :=
  (n.subscription_id == sid) &&
    (match n.body with
     | NotificationBody.simple _ => true
     | NotificationBody.complexAgg _ _ _ _ _ => false)

/-! ## Claim C2: windowed emission rate -/

/-- Look up the window manager of one `(subscription, field)` pair. -/
def dictGet2 (wms : WindowsMap) (sid f : String) : Option WindowManager :=
  match dictGet wms sid with
  | none => none
  | some inner => dictGet inner f

/-- An event is a sample for `(S, f)` when it passes `S`'s non-windowed
gate and yields a numeric value for `f`'s base field. -/
def sampled (s : Subscription) (f : String) (e : EcommerceEvent) : Bool :=
  passes_gate e s && (extract_numeric_value e f).isSome

/-- The notifications counted by C2: complex-bodied, for the given
subscription id and windowed field name. -/
def is_complex_notification_for (sid f : String) (n : Notification) : Bool :=
  (n.subscription_id == sid) &&
    (match n.body with
     | NotificationBody.simple _ => false
     | NotificationBody.complexAgg _ fname _ _ _ => fname == f)

/-- A complex subscription with window size 1 and the windowed condition
on `max_rating` declared twice: both conditions share the single window
manager keyed by field name, so one gate-passing event pushes two values
and fires twice. -/
def exDupSub : Subscription :=
  ⟨"D", "BD", SubscriptionType.COMPLEX,
    [⟨"max_rating", Operator.GREATER_THAN, "0", true⟩,
      ⟨"max_rating", Operator.GREATER_THAN, "0", true⟩], ⟨1, "max"⟩⟩

def exDupMatcher : SubscriptionMatcher :=
  { simple_subscriptions := []
    complex_subscriptions := [("D", exDupSub)]
    window_managers := [("D", [("max_rating", ⟨1, "max", [], false⟩)])]
    subscription_contexts := ["D"] }

/-- A well-formed complex subscription for the amended claim's witness:
one windowed condition on `max_rating`, window size 2. -/
def exRateSub : Subscription :=
  ⟨"T", "BT", SubscriptionType.COMPLEX,
    [⟨"max_rating", Operator.GREATER_THAN, "0", true⟩], ⟨2, "max"⟩⟩

def exRateMatcher : SubscriptionMatcher :=
  { simple_subscriptions := []
    complex_subscriptions := [("T", exRateSub)]
    window_managers := [("T", [("max_rating", ⟨2, "max", [], false⟩)])]
    subscription_contexts := ["T"] }

/-! ## Theorems -/

/-! ## Association-list lemmas -/

theorem dictGet_append_right {α : Type} (d : List (String × α))
    (k : String) (v : α) (h : dictContains d k = false) :
    dictGet (d ++ [(k, v)]) k = some v := by
  induction d with
  | nil => simp [dictGet, List.find?]
  | cons p d ih =>
      simp only [dictContains, List.any_cons, Bool.or_eq_false_iff] at h
      simp only [List.cons_append, dictGet, List.find?, h.1]
      exact ih h.2

theorem dictGet_mapReplace_self {α : Type} (d : List (String × α))
    (k : String) (v : α) (h : dictContains d k = true) :
    dictGet (d.map (fun p => if p.1 == k then (k, v) else p)) k = some v := by
  induction d with
  | nil => simp [dictContains] at h
  | cons p d ih =>
      by_cases hp : p.1 == k
      · simp [dictGet, List.find?, hp]
      · simp only [dictContains, List.any_cons, Bool.or_eq_true] at h
        rcases h with h | h
        · exact absurd h hp
        · simp only [List.map_cons, hp, Bool.false_eq_true, if_false]
          simp only [dictGet, List.find?, hp]
          exact ih h

theorem dictGet_insert_self {α : Type} (d : List (String × α)) (k : String)
    (v : α) : dictGet (dictInsert d k v) k = some v := by
  unfold dictInsert
  by_cases h : dictContains d k
  · simp only [h, if_true]
    exact dictGet_mapReplace_self d k v h
  · simp only [h, Bool.false_eq_true, if_false]
    exact dictGet_append_right d k v (by simpa using h)

theorem map_eq_self_of_not_contains {α : Type} (d : List (String × α))
    (k : String) (v : α) (h : ¬ dictContains d k = true) :
    d.map (fun p => if p.1 == k then (k, v) else p) = d := by
  induction d with
  | nil => simp
  | cons p d ih =>
      simp only [dictContains, List.any_cons, Bool.or_eq_true, not_or] at h
      have h1 : (p.1 == k) = false := by simpa using h.1
      simp only [List.map_cons, h1, Bool.false_eq_true, if_false,
        List.cons.injEq, true_and]
      exact ih (by simpa [dictContains] using h.2)

theorem dictGet_append_singleton_ne {α : Type} (d : List (String × α))
    (k k' : String) (v : α) (h : k' ≠ k) :
    dictGet (d ++ [(k, v)]) k' = dictGet d k' := by
  have hkk : (k == k') = false := by
    simp only [beq_eq_false_iff_ne, ne_eq]
    exact fun e => h e.symm
  induction d with
  | nil => simp [dictGet, List.find?, hkk]
  | cons p d ih =>
      by_cases hq : p.1 == k'
      · simp [dictGet, List.find?, hq]
      · simp only [List.cons_append, dictGet, List.find?, hq] at *
        exact ih

theorem dictGet_mapReplace_ne {α : Type} (d : List (String × α))
    (k k' : String) (v : α) (h : k' ≠ k) :
    dictGet (d.map (fun p => if p.1 == k then (k, v) else p)) k' =
      dictGet d k' := by
  have hkk : (k == k') = false := by
    simp only [beq_eq_false_iff_ne, ne_eq]
    exact fun e => h e.symm
  induction d with
  | nil => simp
  | cons p d ih =>
      by_cases hp : p.1 == k
      · have hk : p.1 = k := by simpa using hp
        have hp' : (p.1 == k') = false := by rw [hk]; exact hkk
        simp only [List.map_cons, hp, if_true, dictGet, List.find?, hkk, hp']
        exact ih
      · simp only [List.map_cons, hp, Bool.false_eq_true, if_false]
        by_cases hq : p.1 == k'
        · simp [dictGet, List.find?, hq]
        · simp only [dictGet, List.find?, hq] at *
          exact ih

theorem dictGet_insert_ne {α : Type} (d : List (String × α)) (k k' : String)
    (v : α) (h : k' ≠ k) : dictGet (dictInsert d k v) k' = dictGet d k' := by
  unfold dictInsert
  by_cases hc : dictContains d k
  · simp only [hc, if_true]
    exact dictGet_mapReplace_ne d k k' v h
  · simp only [hc, Bool.false_eq_true, if_false]
    exact dictGet_append_singleton_ne d k k' v h

theorem dictErase_of_not_contains {α : Type} (d : List (String × α))
    (k : String) (h : dictContains d k = false) : dictErase d k = d := by
  induction d with
  | nil => simp [dictErase]
  | cons p d ih =>
      simp only [dictContains, List.any_cons, Bool.or_eq_false_iff] at h
      have h1 : (p.1 != k) = true := by
        simp only [bne, h.1, Bool.not_false]
      simp only [dictErase, List.filter_cons, h1, if_true]
      have := ih h.2
      simp only [dictErase] at this
      rw [this]

theorem dictErase_insert_of_not_contains {α : Type} (d : List (String × α))
    (k : String) (v : α) (h : dictContains d k = false) :
    dictErase (dictInsert d k v) k = d := by
  simp only [dictInsert, h, Bool.false_eq_true, if_false]
  have h2 : dictErase (d ++ [(k, v)]) k = dictErase d k ++ dictErase [(k, v)] k := by
    simp [dictErase]
  rw [h2, dictErase_of_not_contains d k h]
  simp [dictErase]

theorem dictContains_eq_isSome_get {α : Type} (d : List (String × α))
    (k : String) : dictContains d k = (dictGet d k).isSome := by
  induction d with
  | nil => simp [dictContains, dictGet, List.find?]
  | cons p d ih =>
      by_cases hp : p.1 == k
      · simp [dictContains, dictGet, List.find?, hp]
      · simp only [dictContains, dictGet, List.find?, hp, List.any_cons,
          Bool.false_or] at *
        exact ih

theorem dictContains_insert_self {α : Type} (d : List (String × α))
    (k : String) (v : α) : dictContains (dictInsert d k v) k = true := by
  rw [dictContains_eq_isSome_get, dictGet_insert_self]
  rfl

theorem lexLt_iff_Lex (as bs : List Char) :
    lexLt as bs = true ↔ List.Lex (· < ·) as bs := by
  induction as generalizing bs with
  | nil =>
      cases bs with
      | nil => simp [lexLt]
      | cons b bs => simp [lexLt]; exact List.Lex.nil
  | cons a as ih =>
      cases bs with
      | nil =>
          simp only [lexLt, Bool.false_eq_true, false_iff]
          intro h; cases h
      | cons b bs =>
          rcases lt_trichotomy a b with hab | hab | hab
          · simp only [lexLt, hab, if_true, true_iff]
            exact List.Lex.rel hab
          · subst hab
            simp only [lexLt, lt_irrefl, if_false, ih]
            constructor
            · exact fun h => List.Lex.cons h
            · intro h
              cases h with
              | rel h => exact absurd h (lt_irrefl a)
              | cons h => exact h
          · have h1 : ¬ a < b := not_lt_of_gt hab
            simp only [lexLt, h1, if_false, hab, if_true, Bool.false_eq_true,
              false_iff]
            intro h
            cases h with
            | rel h => exact absurd h h1
            | cons h => exact absurd hab (lt_irrefl a)

theorem string_lt_iff_lex (s t : String) :
    s < t ↔ List.Lex (· < ·) s.data t.data :=
  String.lt_iff_toList_lt

theorem string_lt_eq_lexLt (s t : String) :
    decide (s < t) = lexLt s.data t.data := by
  rcases h : lexLt s.data t.data with _ | _
  · simp only [decide_eq_false_iff_not]
    intro hlt
    rw [string_lt_iff_lex, ← lexLt_iff_Lex, h] at hlt
    exact Bool.false_ne_true hlt
  · simp only [decide_eq_true_eq]
    rw [string_lt_iff_lex, ← lexLt_iff_Lex]
    exact h

theorem string_le_eq_lexLt (s t : String) :
    decide (s ≤ t) = !lexLt t.data s.data := by
  have hle : s ≤ t ↔ ¬ t < s := Iff.rfl
  rcases h : lexLt t.data s.data with _ | _
  · simp only [Bool.not_false, decide_eq_true_eq, hle]
    intro hlt
    rw [string_lt_iff_lex, ← lexLt_iff_Lex, h] at hlt
    exact Bool.false_ne_true hlt
  · simp only [Bool.not_true, decide_eq_false_iff_not, hle, not_not]
    rw [string_lt_iff_lex, ← lexLt_iff_Lex]
    exact h

/-! ## Fold max / min helper lemmas -/

theorem foldl_max_mem (xs : List ℚ) (x : ℚ) :
    xs.foldl max x ∈ x :: xs := by
  induction xs generalizing x with
  | nil => simp
  | cons y ys ih =>
      simp only [List.foldl_cons]
      rcases List.mem_cons.mp (ih (max x y)) with h | h
      · rcases max_choice x y with hm | hm <;> rw [h, hm] <;> simp
      · simp [h]

theorem le_foldl_max (xs : List ℚ) (x : ℚ) : x ≤ xs.foldl max x := by
  induction xs generalizing x with
  | nil => simp
  | cons y ys ih =>
      simp only [List.foldl_cons]
      exact le_trans (le_max_left x y) (ih (max x y))

theorem mem_le_foldl_max (xs : List ℚ) :
    ∀ (x y : ℚ), y ∈ xs → y ≤ xs.foldl max x := by
  induction xs with
  | nil => intro x y h; simp at h
  | cons z zs ih =>
      intro x y h
      simp only [List.foldl_cons]
      rcases List.mem_cons.mp h with rfl | h
      · exact le_trans (le_max_right x y) (le_foldl_max zs (max x y))
      · exact ih (max x z) y h

theorem foldl_min_mem (xs : List ℚ) (x : ℚ) :
    xs.foldl min x ∈ x :: xs := by
  induction xs generalizing x with
  | nil => simp
  | cons y ys ih =>
      simp only [List.foldl_cons]
      rcases List.mem_cons.mp (ih (min x y)) with h | h
      · rcases min_choice x y with hm | hm <;> rw [h, hm] <;> simp
      · simp [h]

theorem foldl_min_le (xs : List ℚ) (x : ℚ) : xs.foldl min x ≤ x := by
  induction xs generalizing x with
  | nil => simp
  | cons y ys ih =>
      simp only [List.foldl_cons]
      exact le_trans (ih (min x y)) (min_le_left x y)

theorem foldl_min_le_mem (xs : List ℚ) :
    ∀ (x y : ℚ), y ∈ xs → xs.foldl min x ≤ y := by
  induction xs with
  | nil => intro x y h; simp at h
  | cons z zs ih =>
      intro x y h
      simp only [List.foldl_cons]
      rcases List.mem_cons.mp h with rfl | h
      · exact le_trans (foldl_min_le zs (min x y)) (min_le_right x y)
      · exact ih (min x z) y h

theorem calculate_aggregation_of_ne_nil (wm : WindowManager) (x : ℚ)
    (xs : List ℚ) (h : wm.window = x :: xs) :
    wm.calculate_aggregation =
      Except.ok (aggregateSpec wm.aggregation_type wm.window) := by
  unfold WindowManager.calculate_aggregation aggregateSpec
  rw [h]
  split_ifs <;> simp [pyMean, pyMax, pyMin]

/-- C3: `add_value` appends; below capacity it reports `(false, none)`
keeping the buffer; at capacity it clears the buffer, sets `is_full`,
and returns the aggregate of the capacity-sized sample, which is the
mean / maximum / minimum / sum as the aggregation type dictates (mean
for an unrecognized type).  A window of capacity 1 fires on every
accepted sample. -/
theorem claim3_add_value_spec (wm : WindowManager) (v : ℚ)
    (h : wm.window.length < wm.window_size) :
    (wm.window.length + 1 < wm.window_size →
      wm.add_value v =
        Except.ok ((false, none), { wm with window := wm.window ++ [v] })) ∧
    (wm.window.length + 1 = wm.window_size →
      ∃ a,
        wm.add_value v =
          Except.ok ((true, some a), { wm with window := [], is_full := true }) ∧
        a = aggregateSpec wm.aggregation_type (wm.window ++ [v]) ∧
        ((wm.aggregation_type = "avg" ∨ wm.aggregation_type ∉ recognizedAggregations) →
          a * ((wm.window.length + 1 : ℕ) : ℚ) = (wm.window ++ [v]).sum) ∧
        (wm.aggregation_type = "max" →
          a ∈ wm.window ++ [v] ∧ ∀ x ∈ wm.window ++ [v], x ≤ a) ∧
        (wm.aggregation_type = "min" →
          a ∈ wm.window ++ [v] ∧ ∀ x ∈ wm.window ++ [v], a ≤ x) ∧
        (wm.aggregation_type = "sum" → a = (wm.window ++ [v]).sum)) ∧
    (wm.window_size = 1 →
      ∃ a, wm.add_value v =
        Except.ok ((true, some a), { wm with window := [], is_full := true })) := by
  have happ : dequeAppend wm.window_size wm.window v = wm.window ++ [v] := by
    show List.drop ((wm.window ++ [v]).length - wm.window_size) (wm.window ++ [v]) =
      wm.window ++ [v]
    have h0 : (wm.window ++ [v]).length - wm.window_size = 0 := by
      simp only [List.length_append, List.length_cons, List.length_nil]
      omega
    rw [h0, List.drop_zero]
  have hlen : (wm.window ++ [v]).length = wm.window.length + 1 := by simp
  obtain ⟨x, xs, hx⟩ : ∃ x xs, wm.window ++ [v] = x :: xs := by
    cases hw : wm.window with
    | nil => exact ⟨v, [], by simp [hw]⟩
    | cons y ys => exact ⟨y, ys ++ [v], by simp [hw]⟩
  refine ⟨?_, ?_, ?_⟩
  · intro hlt
    unfold WindowManager.add_value
    simp only [happ, hlen]
    have hne : ¬ (wm.window.length + 1 = wm.window_size) := by omega
    simp only [hne, if_false]
  · intro heq
    unfold WindowManager.add_value
    simp only [happ, hlen, heq, if_true]
    rw [calculate_aggregation_of_ne_nil _ x xs hx]
    refine ⟨aggregateSpec wm.aggregation_type (wm.window ++ [v]), rfl, rfl, ?_, ?_, ?_, ?_⟩
    · intro hty
      have hsz : ((wm.window_size : ℕ) : ℚ) ≠ 0 := by
        have : 0 < wm.window_size := by omega
        positivity
      have hmean : aggregateSpec wm.aggregation_type (wm.window ++ [v]) =
          (wm.window ++ [v]).sum / ((wm.window_size : ℕ) : ℚ) := by
        unfold aggregateSpec
        rcases hty with hty | hty
        · rw [hlen, heq]
          simp [hty]
        · simp only [recognizedAggregations, List.mem_cons,
            List.not_mem_nil, or_false, not_or] at hty
          obtain ⟨h1, h2, h3, h4⟩ := hty
          rw [hlen, heq]
          simp [h1, h2, h3, h4]
      rw [hmean, div_mul_cancel₀ _ hsz]
    · intro hty
      rw [hty, hx]
      have hmax : aggregateSpec "max" (x :: xs) = xs.foldl max x := by
        simp [aggregateSpec]
      rw [hmax]
      refine ⟨foldl_max_mem xs x, ?_⟩
      intro y hy
      rcases List.mem_cons.mp hy with rfl | hy
      · exact le_foldl_max xs y
      · exact mem_le_foldl_max xs x y hy
    · intro hty
      rw [hty, hx]
      have hmin : aggregateSpec "min" (x :: xs) = xs.foldl min x := by
        simp [aggregateSpec]
      rw [hmin]
      refine ⟨foldl_min_mem xs x, ?_⟩
      intro y hy
      rcases List.mem_cons.mp hy with rfl | hy
      · exact foldl_min_le xs y
      · exact foldl_min_le_mem xs x y hy
    · intro hty
      rw [hty]
      simp [aggregateSpec]
  · intro hsize
    have heq : wm.window.length + 1 = wm.window_size := by omega
    unfold WindowManager.add_value
    simp only [happ, hlen, heq, if_true]
    rw [calculate_aggregation_of_ne_nil _ x xs hx]
    exact ⟨_, rfl⟩

/-- C3 witness: a concrete `avg` window of capacity 2 holding one sample
accepts `3` and fires with mean `2`. -/
theorem claim3_add_value_spec_witness :
    (WindowManager.add_value ⟨2, "avg", [1], false⟩ 3 =
        Except.ok ((true, some (aggregateSpec "avg" [1, 3])), ⟨2, "avg", [], true⟩)) ∧
      aggregateSpec "avg" [1, 3] = 2 := by
  have h := claim3_add_value_spec ⟨2, "avg", [1], false⟩ 3 (by decide)
  obtain ⟨a, ha, hagg, _⟩ := h.2.1 (by decide)
  have hval : aggregateSpec "avg" [1, 3] = 2 := by
    simp [aggregateSpec]
    norm_num
  refine ⟨?_, hval⟩
  rw [ha, hagg]
  rfl

/-- C8: for a windowed condition whose value parses, EQUAL holds exactly
when `|a - v|` is inside the `1e-2` tolerance, NOT_EQUAL exactly when it
is outside, the two are exact complements, and the ordering operators
compare the aggregate and the parsed value directly. -/
theorem claim8_windowed_tolerance (a cv : ℚ) (c : FilterCondition)
    (hparse : pyFloat c.value = some cv) :
    (∀ op, evaluate_windowed_condition a { c with operator := op } =
        windowedCompareSpec op a cv) ∧
    ((evaluate_windowed_condition a { c with operator := Operator.EQUAL } = true) ↔
      |a - cv| < 1 / 100) ∧
    ((evaluate_windowed_condition a { c with operator := Operator.NOT_EQUAL } = true) ↔
      ¬ |a - cv| < 1 / 100) ∧
    (evaluate_windowed_condition a { c with operator := Operator.NOT_EQUAL } =
      !evaluate_windowed_condition a { c with operator := Operator.EQUAL }) := by
  have hev : ∀ op, evaluate_windowed_condition a { c with operator := op } =
      windowedCompareSpec op a cv := by
    intro op
    unfold evaluate_windowed_condition windowedCompareSpec
    show (match pyFloat c.value with
      | none => false
      | some condition_value => _) = _
    rw [hparse]
    cases op
    case NOT_EQUAL =>
      show decide (|a - cv| ≥ 1 / 100) = !decide (|a - cv| < 1 / 100)
      simp only [ge_iff_le]
      by_cases hlt : |a - cv| < 1 / 100
      · rw [decide_eq_false (not_le.mpr hlt), decide_eq_true hlt]
        rfl
      · rw [decide_eq_true (not_lt.mp hlt), decide_eq_false hlt]
        rfl
    all_goals rfl
  refine ⟨hev, ?_, ?_, ?_⟩
  · rw [hev Operator.EQUAL]
    simp [windowedCompareSpec]
  · rw [hev Operator.NOT_EQUAL]
    simp [windowedCompareSpec]
  · rw [hev Operator.NOT_EQUAL, hev Operator.EQUAL]
    rfl

/-- C8 witness: with condition value `"10.0"` and aggregate `10.005` the
EQUAL form holds and the NOT_EQUAL form is its complement. -/
theorem claim8_windowed_tolerance_witness :
    pyFloat "10.0" = some 10 ∧
    ((evaluate_windowed_condition ((2001 : ℚ) / 200)
        ⟨"avg_price", Operator.EQUAL, "10.0", true⟩ = true) ↔
      |(2001 : ℚ) / 200 - 10| < 1 / 100) := by
  have hp : pyFloat "10.0" = some 10 := by
    simp [pyFloat, trimChars, parseUnsigned, splitDot, digitsToNat]
  have h := claim8_windowed_tolerance ((2001 : ℚ) / 200) 10
    ⟨"avg_price", Operator.EQUAL, "10.0", true⟩ hp
  exact ⟨hp, h.2.1⟩

theorem applyOpQ_eq_spec (op : Operator) (a b : ℚ) :
    applyOpQ op a b = numericCompareSpec op a b := by
  cases op <;> simp only [applyOpQ, numericCompareSpec]
  · by_cases h : a = b <;> simp [h]
  · by_cases h : a = b <;> simp [h, bne]

theorem applyOpS_eq_spec (op : Operator) (a b : String) :
    applyOpS op a b = stringCompareSpec op a b := by
  cases op <;> simp only [applyOpS, stringCompareSpec]
  · by_cases h : a = b <;> simp [h]
  · by_cases h : a = b <;> simp [h, bne]
  · exact string_lt_eq_lexLt b a
  · exact string_lt_eq_lexLt a b
  · exact string_le_eq_lexLt b a
  · exact string_le_eq_lexLt a b

/-- C4: the source's condition evaluation coincides with the spec-side
evaluation: `false` on a field undefined for the event's variant; float
coercion of both sides (failure to parse gives `false`) for the numeric
field names; string comparison with lexicographic ordering otherwise. -/
theorem claim4_evaluate_condition_spec (event : EcommerceEvent)
    (cond : FilterCondition) :
    evaluate_condition event cond = evaluate_condition_spec event cond := by
  unfold evaluate_condition evaluate_condition_spec
  cases extract_field_value event cond.field_name with
  | none => rfl
  | some fv =>
      by_cases hn : cond.field_name ∈ numericFieldNames
      · simp only [hn, if_true]
        cases coerceFloat fv with
        | none => rfl
        | some a =>
            cases pyFloat cond.value with
            | none => rfl
            | some b => exact applyOpQ_eq_spec cond.operator a b
      · simp only [hn, if_false]
        exact applyOpS_eq_spec cond.operator (pyStr fv) cond.value

/-- Extraction is well-typed: the five numeric field names only ever
extract numeric payload fields, every other name only string fields (so
the `str(...)` branch of the source is the identity on extracted
values). -/
theorem extract_field_value_welltyped (event : EcommerceEvent)
    (name : String) (fv : FieldValue)
    (h : extract_field_value event name = some fv) :
    (name ∈ numericFieldNames → ∃ q, fv = FieldValue.num q) ∧
    (name ∉ numericFieldNames → ∃ s, fv = FieldValue.str s) := by
  cases event <;>
    simp only [extract_field_value] at h <;>
    split_ifs at h <;>
    simp_all [numericFieldNames] <;>
    simp [← h]

/-! ## Claims C5 and C7: registry add / remove -/

theorem ctx_filter_insert (ctx : List String) (k : String)
    (h : ctx.contains k = false) :
    (ctxInsert ctx k).filter (fun x => x != k) = ctx := by
  unfold ctxInsert
  rw [h]
  simp only [Bool.false_eq_true, if_false, List.filter_append]
  have h2 : ctx.filter (fun x => x != k) = ctx := by
    induction ctx with
    | nil => rfl
    | cons c cs ih =>
        simp only [List.contains_cons, Bool.or_eq_false_iff] at h
        have hkc : ¬ (k = c) := by simpa using h.1
        have hc : (c != k) = true := by
          simp only [bne, Bool.not_eq_true', beq_eq_false_iff_ne, ne_eq]
          exact fun e => hkc e.symm
        simp only [List.filter_cons, hc, if_true]
        rw [ih h.2]
  rw [h2]
  have h3 : List.filter (fun x => x != k) [k] = [] := by simp
  rw [h3, List.append_nil]

/-- C5 counterexample: the claim says `add` rejects an empty conditions
list leaving the registry unchanged; the source performs no validation
and inserts the subscription. -/
theorem claim5_counterexample :
    SubscriptionMatcher.add_subscription SubscriptionMatcher.empty
        ⟨"S0", "B0", SubscriptionType.SIMPLE, [], ⟨5, "avg"⟩⟩ =
      { SubscriptionMatcher.empty with
        simple_subscriptions :=
          [("S0", ⟨"S0", "B0", SubscriptionType.SIMPLE, [], ⟨5, "avg"⟩⟩)] } ∧
    SubscriptionMatcher.add_subscription SubscriptionMatcher.empty
        ⟨"S0", "B0", SubscriptionType.SIMPLE, [], ⟨5, "avg"⟩⟩ ≠
      SubscriptionMatcher.empty := by
  constructor
  · rfl
  · intro h
    have := congrArg (fun m => m.simple_subscriptions.length) h
    simp [SubscriptionMatcher.add_subscription, SubscriptionMatcher.empty,
      dictInsert, dictContains] at this

/-- C5 amended: `add_subscription` performs no validation at all: every
subscription — including one with an empty conditions list, a complex
one without windowed conditions, window size 0, or an unrecognized
aggregation type — is inserted into the map for its kind (complex
additionally gets one window manager per windowed condition and a
context entry). -/
theorem claim5_amended_add_never_fails (m : SubscriptionMatcher)
    (s : Subscription) :
    (s.type = SubscriptionType.SIMPLE →
      m.add_subscription s =
        { m with simple_subscriptions :=
            dictInsert m.simple_subscriptions s.subscription_id s } ∧
      dictContains (m.add_subscription s).simple_subscriptions
        s.subscription_id = true) ∧
    (s.type = SubscriptionType.COMPLEX →
      m.add_subscription s =
        { m with
          complex_subscriptions :=
            dictInsert m.complex_subscriptions s.subscription_id s
          window_managers :=
            dictInsert m.window_managers s.subscription_id (setup_windows_for s)
          subscription_contexts :=
            ctxInsert m.subscription_contexts s.subscription_id } ∧
      dictContains (m.add_subscription s).complex_subscriptions
        s.subscription_id = true) := by
  constructor
  · intro ht
    unfold SubscriptionMatcher.add_subscription
    rw [ht]
    exact ⟨rfl, dictContains_insert_self _ _ _⟩
  · intro ht
    unfold SubscriptionMatcher.add_subscription
    rw [ht]
    have hne : ¬ (SubscriptionType.COMPLEX = SubscriptionType.SIMPLE) := by
      intro h; cases h
    simp only [hne, if_false]
    exact ⟨rfl, dictContains_insert_self _ _ _⟩

/-- C5 amended witness: the empty-conditions simple subscription of the
counterexample is inserted into the simple map. -/
theorem claim5_amended_add_never_fails_witness :
    dictContains
      (SubscriptionMatcher.add_subscription SubscriptionMatcher.empty
          ⟨"S0", "B0", SubscriptionType.SIMPLE, [], ⟨5, "avg"⟩⟩).simple_subscriptions
      "S0" = true :=
  ((claim5_amended_add_never_fails SubscriptionMatcher.empty
      ⟨"S0", "B0", SubscriptionType.SIMPLE, [], ⟨5, "avg"⟩⟩).1 rfl).2

/-- C7: adding a subscription whose id is fresh and then removing that id
restores the matcher exactly, and removing an id absent from both maps is
a silent no-op. -/
theorem claim7_remove_roundtrip (m : SubscriptionMatcher) (s : Subscription)
    (id : String) :
    ((dictContains m.simple_subscriptions s.subscription_id = false ∧
      dictContains m.complex_subscriptions s.subscription_id = false ∧
      dictContains m.window_managers s.subscription_id = false ∧
      m.subscription_contexts.contains s.subscription_id = false) →
      (m.add_subscription s).remove_subscription s.subscription_id = m) ∧
    ((dictContains m.simple_subscriptions id = false ∧
      dictContains m.complex_subscriptions id = false) →
      m.remove_subscription id = m) := by
  constructor
  · rintro ⟨h1, h2, h3, h4⟩
    unfold SubscriptionMatcher.add_subscription
    by_cases ht : s.type = SubscriptionType.SIMPLE
    · simp only [ht, if_true]
      unfold SubscriptionMatcher.remove_subscription
      simp only [dictContains_insert_self, if_true]
      rw [dictErase_insert_of_not_contains _ _ _ h1]
    · simp only [ht, if_false]
      unfold SubscriptionMatcher.setup_window_managers
        SubscriptionMatcher.remove_subscription
      simp only [h1, dictContains_insert_self, Bool.false_eq_true, if_false,
        if_true]
      rw [dictErase_insert_of_not_contains _ _ _ h2,
        dictErase_insert_of_not_contains _ _ _ h3,
        ctx_filter_insert _ _ h4]
  · rintro ⟨h1, h2⟩
    unfold SubscriptionMatcher.remove_subscription
    simp only [h1, h2, Bool.false_eq_true, if_false]

/-- C7 witness: a concrete complex subscription added to the empty
matcher and removed again restores the empty matcher, and removing an
unknown id from the empty matcher is a no-op. -/
theorem claim7_remove_roundtrip_witness :
    (SubscriptionMatcher.remove_subscription
        (SubscriptionMatcher.add_subscription SubscriptionMatcher.empty
          ⟨"C1", "B0", SubscriptionType.COMPLEX,
            [⟨"avg_price", Operator.GREATER_THAN, "5", true⟩], ⟨3, "avg"⟩⟩)
        "C1" = SubscriptionMatcher.empty) ∧
    (SubscriptionMatcher.remove_subscription SubscriptionMatcher.empty
        "nope" = SubscriptionMatcher.empty) := by
  have h := claim7_remove_roundtrip SubscriptionMatcher.empty
    ⟨"C1", "B0", SubscriptionType.COMPLEX,
      [⟨"avg_price", Operator.GREATER_THAN, "5", true⟩], ⟨3, "avg"⟩⟩ "nope"
  exact ⟨h.1 ⟨rfl, rfl, rfl, rfl⟩, h.2 ⟨rfl, rfl⟩⟩

theorem foldl_simple_step_eq (e : EcommerceEvent) :
    ∀ (l : List (String × Subscription)) (acc : List Notification),
      l.foldl (simple_step e) acc =
        acc ++ (l.filter (fun p => match_simple_subscription e p.2)).map
          (fun p => create_simple_notification e p.2) := by
  intro l
  induction l with
  | nil => intro acc; simp
  | cons p l ih =>
      intro acc
      simp only [List.foldl_cons, simple_step]
      by_cases h : match_simple_subscription e p.2
      · rw [if_pos h, ih]
        simp [h]
      · rw [if_neg h, ih]
        simp [h]

theorem except_bind_ok_elim {α β : Type} {x : Except String α}
    {f : α → Except String β} {out : β} (h : x >>= f = Except.ok out) :
    ∃ a, x = Except.ok a ∧ f a = Except.ok out := by
  cases x with
  | error e => simp [Bind.bind, Except.bind] at h
  | ok a => exact ⟨a, rfl, by simpa [Bind.bind, Except.bind] using h⟩

theorem match_event_ok_elim (m : SubscriptionMatcher) (e : EcommerceEvent)
    (ns : List Notification) (m' : SubscriptionMatcher)
    (h : match_event m e = Except.ok (ns, m')) :
    ∃ cns wms',
      m.complex_subscriptions.foldlM (complex_step e)
          ([], m.window_managers) = Except.ok (cns, wms') ∧
      ns = simple_matches m e ++ cns ∧
      m' = { m with window_managers := wms' } := by
  unfold match_event at h
  rcases hf : m.complex_subscriptions.foldlM (complex_step e)
      ([], m.window_managers) with err | ⟨cns, wms'⟩
  · rw [hf] at h
    exact Except.noConfusion h
  · rw [hf] at h
    simp only [Except.ok.injEq, Prod.mk.injEq] at h
    refine ⟨cns, wms', rfl, ?_, h.2.symm⟩
    rw [← h.1, foldl_simple_step_eq]
    simp [simple_matches]

theorem process_windowed_condition_ok_elim (e : EcommerceEvent)
    (s : Subscription) (acc : List Notification × WindowsMap)
    (c : FilterCondition) (mid : List Notification × WindowsMap)
    (h : process_windowed_condition e s acc c = Except.ok mid) :
    mid.1 = acc.1 ∨
      ∃ agg, mid.1 = acc.1 ++ [create_complex_notification s c agg] ∧
        c.is_windowed = true := by
  unfold process_windowed_condition at h
  repeat' split at h
  all_goals
    first
      | exact Except.noConfusion h
      | (simp only [Except.ok.injEq] at h
         rw [← h]
         exact Or.inl rfl)
      | (simp only [Except.ok.injEq] at h
         rw [← h]
         refine Or.inr ⟨_, rfl, ?_⟩
         assumption)

theorem cond_fold_chunks (e : EcommerceEvent) (s : Subscription) :
    ∀ (cs : List FilterCondition) (acc out : List Notification × WindowsMap),
      cs.foldlM (process_windowed_condition e s) acc = Except.ok out →
      ∃ K : List (List Notification),
        K.length = cs.length ∧ out.1 = acc.1 ++ K.join ∧
        ∀ i (hi : i < cs.length) (hi2 : i < K.length),
          K.get ⟨i, hi2⟩ = [] ∨
          ∃ agg,
            K.get ⟨i, hi2⟩ =
              [create_complex_notification s (cs.get ⟨i, hi⟩) agg] ∧
            (cs.get ⟨i, hi⟩).is_windowed = true := by
  intro cs
  induction cs with
  | nil =>
      intro acc out h
      simp only [List.foldlM_nil] at h
      have hao : acc = out := by
        simpa [pure, Except.pure, Except.ok.injEq] using h
      refine ⟨[], rfl, ?_, ?_⟩
      · rw [← hao]; simp
      · intro i hi
        exact absurd hi (Nat.not_lt_zero i)
  | cons c cs ih =>
      intro acc out h
      rw [List.foldlM_cons] at h
      obtain ⟨mid, hstep, hrest⟩ := except_bind_ok_elim h
      obtain ⟨K, hKlen, hout1, hKi⟩ := ih mid out hrest
      rcases process_windowed_condition_ok_elim e s acc c mid hstep with
        hmid | ⟨agg, hmid, hwind⟩
      · refine ⟨[] :: K, by simp [hKlen], ?_, ?_⟩
        · rw [hout1, hmid]
          simp
        · intro i hi hi2
          cases i with
          | zero => exact Or.inl rfl
          | succ j =>
              have hj : j < cs.length := Nat.lt_of_succ_lt_succ hi
              have hj2 : j < K.length := Nat.lt_of_succ_lt_succ (by simpa using hi2)
              simpa using hKi j hj hj2
      · refine ⟨[create_complex_notification s c agg] :: K, by simp [hKlen], ?_, ?_⟩
        · rw [hout1, hmid]
          simp
        · intro i hi hi2
          cases i with
          | zero => exact Or.inr ⟨agg, rfl, hwind⟩
          | succ j =>
              have hj : j < cs.length := Nat.lt_of_succ_lt_succ hi
              have hj2 : j < K.length := Nat.lt_of_succ_lt_succ (by simpa using hi2)
              simpa using hKi j hj hj2

theorem join_replicate_nil {α : Type} :
    ∀ n : Nat, (List.replicate n ([] : List α)).join = [] := by
  intro n
  induction n with
  | zero => rfl
  | succ k ih => simpa [List.replicate_succ] using ih

theorem match_complex_chunks (wms : WindowsMap) (e : EcommerceEvent)
    (s : Subscription) (ns : List Notification) (wms' : WindowsMap)
    (h : match_complex_subscription wms e s = Except.ok (ns, wms')) :
    ∃ K : List (List Notification),
      K.length = s.conditions.length ∧ ns = K.join ∧
      ∀ i (hi : i < s.conditions.length) (hi2 : i < K.length),
        K.get ⟨i, hi2⟩ = [] ∨
        ∃ agg,
          K.get ⟨i, hi2⟩ =
            [create_complex_notification s (s.conditions.get ⟨i, hi⟩) agg] ∧
          (s.conditions.get ⟨i, hi⟩).is_windowed = true := by
  unfold match_complex_subscription at h
  by_cases hg : passes_gate e s = true
  · rw [if_pos hg] at h
    obtain ⟨K, hlen, hout, hKi⟩ := cond_fold_chunks e s s.conditions ([], wms) (ns, wms') h
    exact ⟨K, hlen, by simpa using hout, hKi⟩
  · rw [if_neg hg] at h
    simp only [Except.ok.injEq, Prod.mk.injEq] at h
    refine ⟨List.replicate s.conditions.length [], by simp, ?_, ?_⟩
    · rw [← h.1, join_replicate_nil]
    · intro i hi hi2
      exact Or.inl (List.get_replicate _ _)

theorem match_complex_gate_of_mem (wms : WindowsMap) (e : EcommerceEvent)
    (s : Subscription) (ns : List Notification) (wms' : WindowsMap)
    (h : match_complex_subscription wms e s = Except.ok (ns, wms'))
    (n : Notification) (hn : n ∈ ns) : passes_gate e s = true := by
  unfold match_complex_subscription at h
  by_cases hg : passes_gate e s = true
  · exact hg
  · rw [if_neg hg] at h
    simp only [Except.ok.injEq, Prod.mk.injEq] at h
    rw [← h.1] at hn
    simp at hn

theorem passes_gate_eval (e : EcommerceEvent) (s : Subscription)
    (hg : passes_gate e s = true) :
    ∀ c ∈ s.conditions, c.is_windowed = false →
      evaluate_condition e c = true := by
  intro c hc hw
  unfold passes_gate at hg
  rw [List.all_eq_true] at hg
  have := hg c hc
  rw [hw] at this
  simpa using this

theorem match_complex_mem_shape (wms : WindowsMap) (e : EcommerceEvent)
    (s : Subscription) (ns : List Notification) (wms' : WindowsMap)
    (h : match_complex_subscription wms e s = Except.ok (ns, wms'))
    (n : Notification) (hn : n ∈ ns) :
    n.subscription_id = s.subscription_id ∧
      ∃ c agg, c ∈ s.conditions ∧ c.is_windowed = true ∧
        n = create_complex_notification s c agg := by
  obtain ⟨K, hKlen, hjoin, hKi⟩ := match_complex_chunks wms e s ns wms' h
  rw [hjoin] at hn
  rw [List.mem_join] at hn
  obtain ⟨chunk, hchunk, hnc⟩ := hn
  obtain ⟨⟨i, hi2⟩, hget⟩ := List.mem_iff_get.mp hchunk
  have hi : i < s.conditions.length := by rw [← hKlen]; exact hi2
  rcases hKi i hi hi2 with hnil | ⟨agg, heq, hwind⟩
  · rw [← hget, hnil] at hnc
    simp at hnc
  · rw [← hget, heq] at hnc
    simp only [List.mem_singleton] at hnc
    subst hnc
    refine ⟨rfl, s.conditions.get ⟨i, hi⟩, agg, List.get_mem _ _ _, hwind, rfl⟩

theorem complex_step_ok_elim (e : EcommerceEvent)
    (acc : List Notification × WindowsMap) (p : String × Subscription)
    (mid : List Notification × WindowsMap)
    (h : complex_step e acc p = Except.ok mid) :
    ∃ ns₀ wmid, match_complex_subscription acc.2 e p.2 = Except.ok (ns₀, wmid) ∧
      mid = (acc.1 ++ ns₀, wmid) := by
  unfold complex_step at h
  rcases hm : match_complex_subscription acc.2 e p.2 with e0 | ⟨ns₀, wmid⟩ <;>
    rw [hm] at h
  · exact Except.noConfusion h
  · simp only [Except.ok.injEq] at h
    exact ⟨ns₀, wmid, rfl, h.symm⟩

theorem complex_fold_chunks (e : EcommerceEvent) :
    ∀ (l : List (String × Subscription))
      (acc out : List Notification × WindowsMap),
      l.foldlM (complex_step e) acc = Except.ok out →
      ∃ L : List (List Notification),
        L.length = l.length ∧ out.1 = acc.1 ++ L.join ∧
        ∀ i (hi : i < l.length) (hi2 : i < L.length),
          ∃ wms wms',
            match_complex_subscription wms e (l.get ⟨i, hi⟩).2 =
              Except.ok (L.get ⟨i, hi2⟩, wms') := by
  intro l
  induction l with
  | nil =>
      intro acc out h
      simp only [List.foldlM_nil] at h
      have hao : acc = out := by
        simpa [pure, Except.pure, Except.ok.injEq] using h
      refine ⟨[], rfl, ?_, ?_⟩
      · rw [← hao]; simp
      · intro i hi
        exact absurd hi (Nat.not_lt_zero i)
  | cons p l ih =>
      intro acc out h
      rw [List.foldlM_cons] at h
      obtain ⟨mid, hstep, hrest⟩ := except_bind_ok_elim h
      obtain ⟨ns₀, wmid, hmc, hmid⟩ := complex_step_ok_elim e acc p mid hstep
      obtain ⟨L, hLlen, hout1, hLi⟩ := ih mid out hrest
      refine ⟨ns₀ :: L, by simp [hLlen], ?_, ?_⟩
      · rw [hout1, hmid]
        simp
      · intro i hi hi2
        cases i with
        | zero => exact ⟨acc.2, wmid, by simpa using hmc⟩
        | succ j =>
            have hj : j < l.length := Nat.lt_of_succ_lt_succ hi
            have hj2 : j < L.length := Nat.lt_of_succ_lt_succ (by simpa using hi2)
            simpa using hLi j hj hj2

/-! ## Claim C1 -/

/-- C1: whenever `match_event` succeeds, every emitted notification
belongs to a registered subscription (simple or complex) all of whose
non-windowed conditions evaluate to true on the event under the coercion
rules of `evaluate_condition`. -/
theorem claim1_nonwindowed_gate (m : SubscriptionMatcher)
    (e : EcommerceEvent) (ns : List Notification) (m' : SubscriptionMatcher)
    (h : match_event m e = Except.ok (ns, m')) :
    ∀ n ∈ ns, ∃ p : String × Subscription,
      (p ∈ m.simple_subscriptions ∨ p ∈ m.complex_subscriptions) ∧
      n.subscription_id = p.2.subscription_id ∧
      ∀ c ∈ p.2.conditions, c.is_windowed = false →
        evaluate_condition e c = true := by
  intro n hn
  obtain ⟨cns, wms', hfold, hns, hm'⟩ := match_event_ok_elim m e ns m' h
  rw [hns] at hn
  rcases List.mem_append.mp hn with hsimp | hcplx
  · unfold simple_matches at hsimp
    rw [List.mem_map] at hsimp
    obtain ⟨p, hpf, hpn⟩ := hsimp
    rw [List.mem_filter] at hpf
    obtain ⟨hpm, hpmatch⟩ := hpf
    refine ⟨p, Or.inl hpm, ?_, ?_⟩
    · rw [← hpn]; rfl
    · intro c hc _
      unfold match_simple_subscription at hpmatch
      rw [List.all_eq_true] at hpmatch
      exact hpmatch c hc
  · obtain ⟨L, hLlen, hout, hLi⟩ :=
      complex_fold_chunks e m.complex_subscriptions ([], m.window_managers)
        (cns, wms') hfold
    have hcns : cns = L.join := by simpa using hout
    rw [hcns] at hcplx
    rw [List.mem_join] at hcplx
    obtain ⟨chunk, hchunk, hnc⟩ := hcplx
    obtain ⟨⟨i, hi2⟩, hget⟩ := List.mem_iff_get.mp hchunk
    have hi : i < m.complex_subscriptions.length := by
      rw [← hLlen]; exact hi2
    obtain ⟨wms0, wms1, hmc⟩ := hLi i hi hi2
    have hmem := match_complex_mem_shape wms0 e _ _ wms1 hmc n
      (by rw [hget]; exact hnc)
    refine ⟨m.complex_subscriptions.get ⟨i, hi⟩,
      Or.inr (List.get_mem _ _ _), hmem.1, ?_⟩
    intro c hc hw
    have hg := match_complex_gate_of_mem wms0 e _ _ wms1 hmc n
      (by rw [hget]; exact hnc)
    exact passes_gate_eval e _ hg c hc hw

/-- C1 witness: one registered simple subscription on
`category EQUAL Electronics` matched by a concrete purchase event. -/
theorem claim1_nonwindowed_gate_witness :
    ∃ p : String × Subscription,
      (p ∈ exMatcherSimple.simple_subscriptions ∨
        p ∈ exMatcherSimple.complex_subscriptions) ∧
      (create_simple_notification exEvent exSimpleSub).subscription_id =
        p.2.subscription_id ∧
      ∀ c ∈ p.2.conditions, c.is_windowed = false →
        evaluate_condition exEvent c = true :=
  claim1_nonwindowed_gate exMatcherSimple exEvent
    [create_simple_notification exEvent exSimpleSub] exMatcherSimple (by rfl)
    (create_simple_notification exEvent exSimpleSub)
    (List.mem_cons_self _ _)

/-! ## Claim C9 -/

/-- C9: one `match_event` call returns the simple-subscription matches
first, in registry-iteration order, followed by the complex matches in
registry-iteration order, where each complex subscription contributes the
concatenation of per-condition chunks in declaration order, each chunk
empty or one notification built from that (windowed) condition. -/
theorem claim9_ordering (m : SubscriptionMatcher) (e : EcommerceEvent)
    (ns : List Notification) (m' : SubscriptionMatcher)
    (h : match_event m e = Except.ok (ns, m')) :
    ∃ L : List (List Notification),
      ns = simple_matches m e ++ L.join ∧
      L.length = m.complex_subscriptions.length ∧
      (∀ i (hi : i < m.complex_subscriptions.length) (hi2 : i < L.length),
        ∃ wms wms',
          match_complex_subscription wms e
              (m.complex_subscriptions.get ⟨i, hi⟩).2 =
            Except.ok (L.get ⟨i, hi2⟩, wms')) ∧
      (∀ i (hi : i < m.complex_subscriptions.length) (hi2 : i < L.length),
        ∃ K : List (List Notification),
          K.length =
            (m.complex_subscriptions.get ⟨i, hi⟩).2.conditions.length ∧
          L.get ⟨i, hi2⟩ = K.join ∧
          ∀ j (hj : j <
              (m.complex_subscriptions.get ⟨i, hi⟩).2.conditions.length)
            (hj2 : j < K.length),
            K.get ⟨j, hj2⟩ = [] ∨
            ∃ agg,
              K.get ⟨j, hj2⟩ =
                [create_complex_notification
                  (m.complex_subscriptions.get ⟨i, hi⟩).2
                  ((m.complex_subscriptions.get ⟨i, hi⟩).2.conditions.get
                    ⟨j, hj⟩) agg] ∧
              ((m.complex_subscriptions.get ⟨i, hi⟩).2.conditions.get
                ⟨j, hj⟩).is_windowed = true) := by
  obtain ⟨cns, wms', hfold, hns, hm'⟩ := match_event_ok_elim m e ns m' h
  obtain ⟨L, hLlen, hout, hLi⟩ := complex_fold_chunks e _ _ _ hfold
  have hcns : cns = L.join := by simpa using hout
  refine ⟨L, by rw [hns, hcns], hLlen, hLi, ?_⟩
  intro i hi hi2
  obtain ⟨wms0, wms1, hmc⟩ := hLi i hi hi2
  obtain ⟨K, hKlen, hKjoin, hKj⟩ := match_complex_chunks wms0 e _ _ wms1 hmc
  exact ⟨K, hKlen, hKjoin, hKj⟩

/-- C9 witness: a matcher with one matching simple subscription and one
complex subscription whose gate fails on the event. -/
theorem claim9_ordering_witness :
    ∃ L : List (List Notification),
      [create_simple_notification exEvent exSimpleSub] =
        simple_matches exMatcherBoth exEvent ++ L.join ∧
      L.length = exMatcherBoth.complex_subscriptions.length ∧
      (∀ i (hi : i < exMatcherBoth.complex_subscriptions.length)
        (hi2 : i < L.length),
        ∃ wms wms',
          match_complex_subscription wms exEvent
              (exMatcherBoth.complex_subscriptions.get ⟨i, hi⟩).2 =
            Except.ok (L.get ⟨i, hi2⟩, wms')) ∧
      (∀ i (hi : i < exMatcherBoth.complex_subscriptions.length)
        (hi2 : i < L.length),
        ∃ K : List (List Notification),
          K.length =
            (exMatcherBoth.complex_subscriptions.get ⟨i, hi⟩).2.conditions.length ∧
          L.get ⟨i, hi2⟩ = K.join ∧
          ∀ j (hj : j <
              (exMatcherBoth.complex_subscriptions.get ⟨i, hi⟩).2.conditions.length)
            (hj2 : j < K.length),
            K.get ⟨j, hj2⟩ = [] ∨
            ∃ agg,
              K.get ⟨j, hj2⟩ =
                [create_complex_notification
                  (exMatcherBoth.complex_subscriptions.get ⟨i, hi⟩).2
                  ((exMatcherBoth.complex_subscriptions.get ⟨i, hi⟩).2.conditions.get
                    ⟨j, hj⟩) agg] ∧
              ((exMatcherBoth.complex_subscriptions.get ⟨i, hi⟩).2.conditions.get
                ⟨j, hj⟩).is_windowed = true) :=
  claim9_ordering exMatcherBoth exEvent
    [create_simple_notification exEvent exSimpleSub] exMatcherBoth (by rfl)

/-- C10: a simple subscription with an empty conditions list is accepted
by `add_subscription` (which never fails), and afterwards every
successful `match_event` call on any event emits exactly one
`SimpleNotification` for it: the empty conjunction is vacuously true. -/
theorem claim10_empty_conditions (m : SubscriptionMatcher)
    (s : Subscription) (e : EcommerceEvent) (ns : List Notification)
    (m' : SubscriptionMatcher)
    (ht : s.type = SubscriptionType.SIMPLE)
    (hc : s.conditions = [])
    (hkey : dictContains m.simple_subscriptions s.subscription_id = false)
    (hid : ∀ p ∈ m.simple_subscriptions,
      p.2.subscription_id ≠ s.subscription_id)
    (h : match_event (m.add_subscription s) e = Except.ok (ns, m')) :
    ns.countP (is_simple_notification_for s.subscription_id) = 1 := by
  have hadd : m.add_subscription s =
      { m with simple_subscriptions :=
          m.simple_subscriptions ++ [(s.subscription_id, s)] } := by
    unfold SubscriptionMatcher.add_subscription
    rw [if_pos ht]
    unfold dictInsert
    rw [hkey]
    simp
  rw [hadd] at h
  obtain ⟨cns, wms', hfold, hns, hm'⟩ := match_event_ok_elim _ e ns m' h
  rw [hns, List.countP_append]
  have hcomplex0 :
      cns.countP (is_simple_notification_for s.subscription_id) = 0 := by
    apply List.countP_eq_zero.mpr
    intro n hnn
    obtain ⟨L, hLlen, hout, hLi⟩ := complex_fold_chunks e _ _ _ hfold
    have hcns : cns = L.join := by simpa using hout
    rw [hcns] at hnn
    rw [List.mem_join] at hnn
    obtain ⟨chunk, hchunk, hnc⟩ := hnn
    obtain ⟨⟨i, hi2⟩, hget⟩ := List.mem_iff_get.mp hchunk
    have hLlen2 : L.length = m.complex_subscriptions.length := hLlen
    have hi : i < m.complex_subscriptions.length := hLlen2 ▸ hi2
    obtain ⟨wms0, wms1, hmc⟩ := hLi i hi hi2
    obtain ⟨_, c, agg, _, _, hform⟩ :=
      match_complex_mem_shape wms0 e _ _ wms1 hmc n (by rw [hget]; exact hnc)
    rw [hform]
    simp [is_simple_notification_for, create_complex_notification]
  rw [hcomplex0]
  have hsm : simple_matches
      { m with simple_subscriptions :=
          m.simple_subscriptions ++ [(s.subscription_id, s)] } e =
      simple_matches m e ++
        ([(s.subscription_id, s)].filter
            (fun p => match_simple_subscription e p.2)).map
          (fun p => create_simple_notification e p.2) := by
    show ((m.simple_subscriptions ++ [(s.subscription_id, s)]).filter
        (fun p => match_simple_subscription e p.2)).map
      (fun p => create_simple_notification e p.2) = _
    rw [List.filter_append, List.map_append]
    rfl
  have hmatchall : match_simple_subscription e s = true := by
    unfold match_simple_subscription
    rw [hc]
    rfl
  rw [hsm]
  simp only [List.filter_cons, hmatchall, if_true, List.filter_nil,
    List.map_cons, List.map_nil, List.countP_append]
  have hleft : (simple_matches m e).countP
      (is_simple_notification_for s.subscription_id) = 0 := by
    apply List.countP_eq_zero.mpr
    intro n hn
    unfold simple_matches at hn
    rw [List.mem_map] at hn
    obtain ⟨p, hpf, hpn⟩ := hn
    rw [List.mem_filter] at hpf
    rw [← hpn]
    have hne : ¬ (p.2.subscription_id = s.subscription_id) := hid p hpf.1
    simp [is_simple_notification_for, create_simple_notification, hne]
  rw [hleft]
  simp [is_simple_notification_for, create_simple_notification]

/-- C10 witness: adding the empty-conditions subscription to the empty
matcher and matching a concrete purchase event yields exactly one simple
notification for it. -/
theorem claim10_empty_conditions_witness :
    List.countP (is_simple_notification_for "A")
      [create_simple_notification exEvent exMatchAllSub] = 1 :=
  claim10_empty_conditions SubscriptionMatcher.empty exMatchAllSub exEvent
    [create_simple_notification exEvent exMatchAllSub]
    { SubscriptionMatcher.empty with
      simple_subscriptions := [("A", exMatchAllSub)] }
    rfl rfl rfl (by intro p hp; simp [SubscriptionMatcher.empty] at hp)
    (by rfl)

/-! ## Claim C6 -/

/-- C6 counterexample: the window-size-0 complex subscription `C0` makes
its window aggregation raise inside `match_event`; the broker catches the
error around the whole call, so the matching simple subscription `A` —
which matches the event — gets nothing dispatched either, contradicting
the claim that one subscription's failure cannot suppress the others'
notifications.  Without the poisoned subscription the same event
dispatches `A`'s notification. -/
theorem claim6_counterexample :
    handle_event exPoisonMatcher exRatingEvent = ([], exPoisonMatcher) ∧
    ("A", exMatchAllSub) ∈ exPoisonMatcher.simple_subscriptions ∧
    match_simple_subscription exRatingEvent exMatchAllSub = true ∧
    (handle_event
        { exPoisonMatcher with
          complex_subscriptions := [], window_managers := [] }
        exRatingEvent).1 =
      [create_simple_notification exRatingEvent exMatchAllSub] := by
  refine ⟨rfl, ?_, rfl, rfl⟩
  simp [exPoisonMatcher]

/-- C6 amended: an error raised inside any one subscription's window
update or evaluation aborts the whole `match_event` call; the broker's
per-event handler catches it and dispatches no notification at all for
that event (error isolation is per event, not per subscription). -/
theorem claim6_amended_error_aborts (m : SubscriptionMatcher)
    (e : EcommerceEvent) (err : String)
    (h : match_event m e = Except.error err) :
    handle_event m e = ([], m) := by
  unfold handle_event
  rw [h]

/-- C6 amended witness: the poisoned matcher dispatches nothing for the
rating event. -/
theorem claim6_amended_error_aborts_witness :
    handle_event exPoisonMatcher exRatingEvent = ([], exPoisonMatcher) :=
  claim6_amended_error_aborts exPoisonMatcher exRatingEvent
    "StatisticsError" (by rfl)

theorem process_windowed_condition_outer_get (e : EcommerceEvent)
    (s : Subscription) (acc : List Notification × WindowsMap)
    (c : FilterCondition) (mid : List Notification × WindowsMap)
    (h : process_windowed_condition e s acc c = Except.ok mid)
    (sid : String) (hid : sid ≠ s.subscription_id) :
    dictGet mid.2 sid = dictGet acc.2 sid := by
  unfold process_windowed_condition at h
  repeat' split at h
  all_goals
    first
      | exact Except.noConfusion h
      | (simp only [Except.ok.injEq] at h
         rw [← h]
         exact dictGet_insert_ne _ _ _ _ hid)
      | (simp only [Except.ok.injEq] at h
         rw [← h])

theorem cond_fold_outer_get (e : EcommerceEvent) (s : Subscription)
    (sid : String) (hid : sid ≠ s.subscription_id) :
    ∀ (cs : List FilterCondition) (acc out : List Notification × WindowsMap),
      cs.foldlM (process_windowed_condition e s) acc = Except.ok out →
      dictGet out.2 sid = dictGet acc.2 sid := by
  intro cs
  induction cs with
  | nil =>
      intro acc out h
      have hao : acc = out := by
        simpa [pure, Except.pure, Except.ok.injEq] using h
      rw [← hao]
  | cons c cs ih =>
      intro acc out h
      rw [List.foldlM_cons] at h
      obtain ⟨mid, hstep, hrest⟩ := except_bind_ok_elim h
      rw [ih mid out hrest]
      exact process_windowed_condition_outer_get e s acc c mid hstep sid hid

theorem match_complex_other_preserves (wms : WindowsMap)
    (e : EcommerceEvent) (s' : Subscription) (ns : List Notification)
    (wms' : WindowsMap) (sid f : String)
    (hid : sid ≠ s'.subscription_id)
    (h : match_complex_subscription wms e s' = Except.ok (ns, wms')) :
    dictGet wms' sid = dictGet wms sid ∧
      ns.countP (is_complex_notification_for sid f) = 0 := by
  constructor
  · unfold match_complex_subscription at h
    by_cases hg : passes_gate e s' = true
    · rw [if_pos hg] at h
      exact cond_fold_outer_get e s' sid hid s'.conditions ([], wms) (ns, wms') h
    · rw [if_neg hg] at h
      simp only [Except.ok.injEq, Prod.mk.injEq] at h
      rw [← h.2]
  · apply List.countP_eq_zero.mpr
    intro n hn
    obtain ⟨hnid, _⟩ := match_complex_mem_shape wms e s' ns wms' h n hn
    simp only [is_complex_notification_for, Bool.and_eq_true, beq_iff_eq]
    intro hcontra
    rw [hnid] at hcontra
    exact hid hcontra.1.symm

theorem complex_fold_other_preserves (e : EcommerceEvent) (sid f : String) :
    ∀ (l : List (String × Subscription))
      (acc out : List Notification × WindowsMap),
      (∀ p ∈ l, p.2.subscription_id ≠ sid) →
      l.foldlM (complex_step e) acc = Except.ok out →
      dictGet out.2 sid = dictGet acc.2 sid ∧
        out.1.countP (is_complex_notification_for sid f) =
          acc.1.countP (is_complex_notification_for sid f) := by
  intro l
  induction l with
  | nil =>
      intro acc out _ h
      have hao : acc = out := by
        simpa [pure, Except.pure, Except.ok.injEq] using h
      rw [← hao]
      exact ⟨rfl, rfl⟩
  | cons p l ih =>
      intro acc out hall h
      rw [List.foldlM_cons] at h
      obtain ⟨mid, hstep, hrest⟩ := except_bind_ok_elim h
      obtain ⟨ns₀, wmid, hmc, hmid⟩ := complex_step_ok_elim e acc p mid hstep
      have hp : sid ≠ p.2.subscription_id :=
        fun hcontra => hall p (List.mem_cons_self p l) hcontra.symm
      obtain ⟨hget0, hcnt0⟩ :=
        match_complex_other_preserves acc.2 e p.2 ns₀ wmid sid f hp hmc
      obtain ⟨hget1, hcnt1⟩ := ih mid out
        (fun q hq => hall q (List.mem_cons_of_mem p hq)) hrest
      constructor
      · rw [hget1, hmid]
        exact hget0
      · rw [hcnt1, hmid]
        simp only [List.countP_append, hcnt0]
        simp

theorem dequeAppend_of_lt (maxlen : Nat) (buf : List ℚ) (v : ℚ)
    (h : buf.length < maxlen) : dequeAppend maxlen buf v = buf ++ [v] := by
  show List.drop ((buf ++ [v]).length - maxlen) (buf ++ [v]) = buf ++ [v]
  have h0 : (buf ++ [v]).length - maxlen = 0 := by
    simp only [List.length_append, List.length_cons, List.length_nil]
    omega
  rw [h0, List.drop_zero]

theorem process_windowed_condition_irrelevant (e : EcommerceEvent)
    (s : Subscription) (acc : List Notification × WindowsMap)
    (c : FilterCondition) (mid : List Notification × WindowsMap) (f : String)
    (hc : ¬(c.is_windowed = true ∧ c.field_name = f))
    (h : process_windowed_condition e s acc c = Except.ok mid) :
    dictGet2 mid.2 s.subscription_id f = dictGet2 acc.2 s.subscription_id f ∧
      mid.1.countP (is_complex_notification_for s.subscription_id f) =
        acc.1.countP (is_complex_notification_for s.subscription_id f) := by
  unfold process_windowed_condition at h
  by_cases hw : c.is_windowed = true
  · have hf : ¬ (c.field_name = f) := fun hcontra => hc ⟨hw, hcontra⟩
    rw [if_pos hw] at h
    rcases hx : extract_numeric_value e c.field_name with _ | v <;>
      rw [hx] at h <;> (try simp only [] at h)
    · simp only [Except.ok.injEq] at h
      rw [← h]
      exact ⟨rfl, rfl⟩
    · rcases hg : dictGet acc.2 s.subscription_id with _ | inner <;>
        rw [hg] at h <;> (try simp only [] at h)
      · exact Except.noConfusion h
      · rcases hg2 : dictGet inner c.field_name with _ | wm <;>
          rw [hg2] at h <;> (try simp only [] at h)
        · exact Except.noConfusion h
        · rcases ha : wm.add_value v with e0 | ⟨⟨fired, agg⟩, wm2⟩ <;>
            rw [ha] at h <;> (try simp only [] at h)
          · exact Except.noConfusion h
          · have hget : dictGet2
                (dictInsert acc.2 s.subscription_id
                  (dictInsert inner c.field_name wm2))
                s.subscription_id f = dictGet2 acc.2 s.subscription_id f := by
              unfold dictGet2
              rw [dictGet_insert_self, hg]
              simp only []
              exact dictGet_insert_ne _ _ _ _ (fun hcontra => hf hcontra.symm)
            rcases fired with _ | _ <;> (try simp only [] at h)
            · simp only [Except.ok.injEq] at h
              rw [← h]
              exact ⟨hget, rfl⟩
            · rcases agg with _ | a <;> (try simp only [] at h)
              · simp only [Except.ok.injEq] at h
                rw [← h]
                exact ⟨hget, rfl⟩
              · by_cases he : evaluate_windowed_condition a c = true
                · rw [if_pos he] at h
                  simp only [Except.ok.injEq] at h
                  rw [← h]
                  refine ⟨hget, ?_⟩
                  simp only [List.countP_append]
                  have hn : is_complex_notification_for s.subscription_id f
                      (create_complex_notification s c a) = false := by
                    simp only [is_complex_notification_for,
                      create_complex_notification, Bool.and_eq_false_iff]
                    right
                    simpa using hf
                  simp [hn]
                · rw [if_neg he] at h
                  simp only [Except.ok.injEq] at h
                  rw [← h]
                  exact ⟨hget, rfl⟩
  · rw [if_neg hw] at h
    simp only [Except.ok.injEq] at h
    rw [← h]
    exact ⟨rfl, rfl⟩

theorem process_windowed_condition_relevant (e : EcommerceEvent)
    (s : Subscription) (acc : List Notification × WindowsMap)
    (c : FilterCondition) (mid : List Notification × WindowsMap) (N : Nat)
    (wm : WindowManager)
    (hcw : c.is_windowed = true)
    (hwm : dictGet2 acc.2 s.subscription_id c.field_name = some wm)
    (hN : wm.window_size = N) (hN1 : 1 ≤ N) (hL : wm.window.length < N)
    (h : process_windowed_condition e s acc c = Except.ok mid) :
    ∃ wm', dictGet2 mid.2 s.subscription_id c.field_name = some wm' ∧
      wm'.window_size = N ∧ wm'.window.length < N ∧
      N * mid.1.countP
            (is_complex_notification_for s.subscription_id c.field_name) +
          wm'.window.length ≤
        N * acc.1.countP
            (is_complex_notification_for s.subscription_id c.field_name) +
          wm.window.length +
          (if (extract_numeric_value e c.field_name).isSome then 1 else 0) := by
  obtain ⟨inner, hg, hg2⟩ :
      ∃ inner, dictGet acc.2 s.subscription_id = some inner ∧
        dictGet inner c.field_name = some wm := by
    unfold dictGet2 at hwm
    rcases hg : dictGet acc.2 s.subscription_id with _ | inner <;> rw [hg] at hwm
    · exact Option.noConfusion hwm
    · exact ⟨inner, rfl, hwm⟩
  unfold process_windowed_condition at h
  rw [if_pos hcw] at h
  rcases hx : extract_numeric_value e c.field_name with _ | v <;>
    rw [hx] at h <;> simp only [] at h
  · simp only [Except.ok.injEq] at h
    rw [← h]
    exact ⟨wm, hwm, hN, hL, by simp⟩
  · rw [hg] at h
    simp only [] at h
    rw [hg2] at h
    simp only [] at h
    have hgetF : ∀ wm2 : WindowManager,
        dictGet2 (dictInsert acc.2 s.subscription_id
            (dictInsert inner c.field_name wm2))
          s.subscription_id c.field_name = some wm2 := by
      intro wm2
      unfold dictGet2
      rw [dictGet_insert_self]
      simp only []
      exact dictGet_insert_self _ _ _
    have happ : dequeAppend wm.window_size wm.window v = wm.window ++ [v] :=
      dequeAppend_of_lt _ _ _ (hN ▸ hL)
    by_cases hfire : wm.window.length + 1 = N
    · obtain ⟨x, xs, hx2⟩ : ∃ x xs, wm.window ++ [v] = x :: xs := by
        cases hwlist : wm.window with
        | nil => exact ⟨v, [], by simp [hwlist]⟩
        | cons y ys => exact ⟨y, ys ++ [v], by simp [hwlist]⟩
      have hav : wm.add_value v =
          Except.ok ((true, some (aggregateSpec wm.aggregation_type (wm.window ++ [v]))),
            { wm with window := [], is_full := true }) := by
        unfold WindowManager.add_value
        simp only [happ]
        have hlen : (wm.window ++ [v]).length = wm.window_size := by
          simp only [List.length_append, List.length_cons, List.length_nil]
          omega
        rw [if_pos hlen]
        rw [calculate_aggregation_of_ne_nil _ x xs hx2]
      rw [hav] at h
      simp only [] at h
      by_cases he : evaluate_windowed_condition
          (aggregateSpec wm.aggregation_type (wm.window ++ [v])) c = true
      · rw [if_pos he] at h
        simp only [Except.ok.injEq] at h
        rw [← h]
        refine ⟨{ wm with window := [], is_full := true }, hgetF _, hN, by
          simpa using hN1, ?_⟩
        have hcnt : (acc.1 ++
              [create_complex_notification s c
                (aggregateSpec wm.aggregation_type (wm.window ++ [v]))]).countP
              (is_complex_notification_for s.subscription_id c.field_name) =
            acc.1.countP
              (is_complex_notification_for s.subscription_id c.field_name) + 1 := by
          rw [List.countP_append]
          simp [is_complex_notification_for, create_complex_notification]
        show N * _ + List.length [] ≤ _
        rw [hcnt]
        simp only [List.length_nil, Nat.add_zero, hx]
        calc N * (acc.1.countP
              (is_complex_notification_for s.subscription_id c.field_name) + 1) =
            N * acc.1.countP
              (is_complex_notification_for s.subscription_id c.field_name) + N := by
              ring
          _ ≤ N * acc.1.countP
              (is_complex_notification_for s.subscription_id c.field_name) +
                wm.window.length + 1 := by omega
          _ ≤ _ := by simp
      · rw [if_neg he] at h
        simp only [Except.ok.injEq] at h
        rw [← h]
        refine ⟨{ wm with window := [], is_full := true }, hgetF _, hN, by
          simpa using hN1, ?_⟩
        simp only [List.length_nil, Nat.add_zero, hx]
        omega
    · have hlt : wm.window.length + 1 < N := by omega
      have hav : wm.add_value v =
          Except.ok ((false, none), { wm with window := wm.window ++ [v] }) := by
        unfold WindowManager.add_value
        simp only [happ]
        have hlen : ¬ ((wm.window ++ [v]).length = wm.window_size) := by
          simp only [List.length_append, List.length_cons, List.length_nil]
          omega
        rw [if_neg hlen]
      rw [hav] at h
      simp only [] at h
      simp only [Except.ok.injEq] at h
      rw [← h]
      refine ⟨{ wm with window := wm.window ++ [v] }, hgetF _, hN, ?_, ?_⟩
      · simpa using hlt
      · simp only [hx, Option.isSome_some, if_true, List.length_append,
          List.length_cons, List.length_nil]
        omega

theorem cond_fold_window_count (e : EcommerceEvent) (s : Subscription) :
    ∀ (cs : List FilterCondition) (f : String) (N : Nat)
      (acc out : List Notification × WindowsMap) (wm : WindowManager),
      1 ≤ N →
      dictGet2 acc.2 s.subscription_id f = some wm →
      wm.window_size = N → wm.window.length < N →
      cs.countP (fun c => c.is_windowed && (c.field_name == f)) ≤ 1 →
      cs.foldlM (process_windowed_condition e s) acc = Except.ok out →
      ∃ wm', dictGet2 out.2 s.subscription_id f = some wm' ∧
        wm'.window_size = N ∧ wm'.window.length < N ∧
        N * out.1.countP (is_complex_notification_for s.subscription_id f) +
            wm'.window.length ≤
          N * acc.1.countP (is_complex_notification_for s.subscription_id f) +
            wm.window.length +
            (if cs.any (fun c => c.is_windowed && (c.field_name == f)) &&
                (extract_numeric_value e f).isSome then 1 else 0) := by
  intro cs
  induction cs with
  | nil =>
      intro f N acc out wm hN1 hwm hsz hlen _ h
      have hao : acc = out := by
        simpa [pure, Except.pure, Except.ok.injEq] using h
      rw [← hao]
      exact ⟨wm, hwm, hsz, hlen, Nat.le_add_right _ _⟩
  | cons c cs ih =>
      intro f N acc out wm hN1 hwm hsz hlen huniq h
      rw [List.foldlM_cons] at h
      obtain ⟨mid, hstep, hrest⟩ := except_bind_ok_elim h
      by_cases hrel : (c.is_windowed && (c.field_name == f)) = true
      · have hcba : c.is_windowed = true ∧ (c.field_name == f) = true := by
          simpa [Bool.and_eq_true] using hrel
        have hcw : c.is_windowed = true := hcba.1
        have hcf : c.field_name = f := by simpa using hcba.2
        subst hcf
        obtain ⟨wm₁, hget₁, hsz₁, hlen₁, hineq₁⟩ :=
          process_windowed_condition_relevant e s acc c mid N wm hcw hwm hsz
            hN1 hlen hstep
        have hcs0 : cs.countP
            (fun c2 => c2.is_windowed && (c2.field_name == c.field_name)) = 0 := by
          rw [List.countP_cons] at huniq
          simp only [hrel, if_true] at huniq
          omega
        obtain ⟨wm', hget', hsz', hlen', hineq₂⟩ :=
          ih c.field_name N mid out wm₁ hN1 hget₁ hsz₁ hlen₁
            (le_trans (le_of_eq hcs0) (Nat.zero_le 1)) hrest
        refine ⟨wm', hget', hsz', hlen', ?_⟩
        have hany : cs.any
            (fun c2 => c2.is_windowed && (c2.field_name == c.field_name)) = false := by
          rw [List.any_eq_false]
          intro x hx
          have := List.countP_eq_zero.mp hcs0 x hx
          simpa using this
        rw [hany] at hineq₂
        simp only [Bool.false_and, Bool.false_eq_true, if_false,
          Nat.add_zero] at hineq₂
        have hanyc : ((c :: cs).any
            (fun c2 => c2.is_windowed && (c2.field_name == c.field_name))) = true := by
          simp only [List.any_cons, hrel, Bool.true_or]
        rw [hanyc]
        simp only [Bool.true_and]
        by_cases hs : (extract_numeric_value e c.field_name).isSome = true
        · simp only [hs, if_true] at hineq₁ ⊢
          omega
        · have hs' : (extract_numeric_value e c.field_name).isSome = false := by
            simpa using hs
          simp only [hs', Bool.false_eq_true, if_false, Nat.add_zero] at hineq₁ ⊢
          omega
      · have hcnot : ¬(c.is_windowed = true ∧ c.field_name = f) := by
          rintro ⟨h1, h2⟩
          exact hrel (by simp [h1, h2])
        obtain ⟨hgetp, hcntp⟩ :=
          process_windowed_condition_irrelevant e s acc c mid f hcnot hstep
        have huniq2 : cs.countP
            (fun c2 => c2.is_windowed && (c2.field_name == f)) ≤ 1 := by
          rw [List.countP_cons] at huniq
          omega
        obtain ⟨wm', hget', hsz', hlen', hineq₂⟩ :=
          ih f N mid out wm hN1 (by rw [hgetp]; exact hwm) hsz hlen huniq2 hrest
        refine ⟨wm', hget', hsz', hlen', ?_⟩
        rw [hcntp] at hineq₂
        have hrelf : (c.is_windowed && (c.field_name == f)) = false := by
          simpa using hrel
        have hanyc : ((c :: cs).any
              (fun c2 => c2.is_windowed && (c2.field_name == f))) =
            cs.any (fun c2 => c2.is_windowed && (c2.field_name == f)) := by
          simp [List.any_cons, hrelf]
        rw [hanyc]
        exact hineq₂

theorem match_complex_self_window (wms : WindowsMap) (e : EcommerceEvent)
    (s : Subscription) (f : String) (N : Nat) (wm : WindowManager)
    (ns : List Notification) (wms' : WindowsMap)
    (hN1 : 1 ≤ N)
    (huniq : s.conditions.countP
      (fun c => c.is_windowed && (c.field_name == f)) ≤ 1)
    (hwm : dictGet2 wms s.subscription_id f = some wm)
    (hsz : wm.window_size = N) (hlen : wm.window.length < N)
    (h : match_complex_subscription wms e s = Except.ok (ns, wms')) :
    ∃ wm', dictGet2 wms' s.subscription_id f = some wm' ∧
      wm'.window_size = N ∧ wm'.window.length < N ∧
      N * ns.countP (is_complex_notification_for s.subscription_id f) +
          wm'.window.length ≤
        wm.window.length + (if sampled s f e then 1 else 0) := by
  unfold match_complex_subscription at h
  by_cases hg : passes_gate e s = true
  · rw [if_pos hg] at h
    obtain ⟨wm', hget', hsz', hlen', hineq⟩ :=
      cond_fold_window_count e s s.conditions f N ([], wms) (ns, wms') wm
        hN1 hwm hsz hlen huniq h
    refine ⟨wm', hget', hsz', hlen', ?_⟩
    simp only [List.countP_nil, Nat.mul_zero, Nat.zero_add] at hineq
    have hsam : sampled s f e = (extract_numeric_value e f).isSome := by
      unfold sampled
      rw [hg]
      simp
    rw [hsam]
    by_cases hs : (extract_numeric_value e f).isSome = true
    · rcases hany : s.conditions.any
          (fun c => c.is_windowed && (c.field_name == f)) with _ | _ <;>
        rw [hany] at hineq <;>
        simp only [hs, Bool.true_and, Bool.false_and, Bool.false_eq_true,
          if_true, if_false, Nat.add_zero, if_true] at hineq ⊢ <;>
        omega
    · have hs' : (extract_numeric_value e f).isSome = false := by simpa using hs
      rw [hs'] at hineq ⊢
      simp only [Bool.and_false, Bool.false_eq_true, if_false,
        Nat.add_zero] at hineq ⊢
      exact hineq
  · rw [if_neg hg] at h
    simp only [Except.ok.injEq, Prod.mk.injEq] at h
    obtain ⟨hns, hwms⟩ := h
    refine ⟨wm, by rw [← hwms]; exact hwm, hsz, hlen, ?_⟩
    rw [← hns]
    simp only [List.countP_nil, Nat.mul_zero, Nat.zero_add]
    exact Nat.le_add_right _ _

theorem match_event_window_step (e : EcommerceEvent)
    (m : SubscriptionMatcher) (A B : List (String × Subscription))
    (k : String) (s : Subscription) (f : String) (N : Nat)
    (wm : WindowManager) (ns : List Notification) (m' : SubscriptionMatcher)
    (hreg : m.complex_subscriptions = A ++ (k, s) :: B)
    (hA : ∀ p ∈ A, p.2.subscription_id ≠ s.subscription_id)
    (hB : ∀ p ∈ B, p.2.subscription_id ≠ s.subscription_id)
    (hN1 : 1 ≤ N)
    (huniq : s.conditions.countP
      (fun c => c.is_windowed && (c.field_name == f)) ≤ 1)
    (hwm : dictGet2 m.window_managers s.subscription_id f = some wm)
    (hsz : wm.window_size = N) (hlen : wm.window.length < N)
    (h : match_event m e = Except.ok (ns, m')) :
    m'.simple_subscriptions = m.simple_subscriptions ∧
    m'.complex_subscriptions = m.complex_subscriptions ∧
    ∃ wm', dictGet2 m'.window_managers s.subscription_id f = some wm' ∧
      wm'.window_size = N ∧ wm'.window.length < N ∧
      N * ns.countP (is_complex_notification_for s.subscription_id f) +
          wm'.window.length ≤
        wm.window.length + (if sampled s f e then 1 else 0) := by
  obtain ⟨cns, wms', hfold, hns, hm'⟩ := match_event_ok_elim m e ns m' h
  subst hm'
  refine ⟨rfl, rfl, ?_⟩
  have hsimple0 : (simple_matches m e).countP
      (is_complex_notification_for s.subscription_id f) = 0 := by
    apply List.countP_eq_zero.mpr
    intro n hn
    unfold simple_matches at hn
    rw [List.mem_map] at hn
    obtain ⟨p, _, hpn⟩ := hn
    rw [← hpn]
    simp [is_complex_notification_for, create_simple_notification]
  rw [hreg, List.foldlM_append] at hfold
  obtain ⟨acc1, hfoldA, hrest⟩ := except_bind_ok_elim hfold
  rw [List.foldlM_cons] at hrest
  obtain ⟨acc2, hstep, hfoldB⟩ := except_bind_ok_elim hrest
  obtain ⟨ns₀, wmid, hmc, hacc2⟩ := complex_step_ok_elim e acc1 (k, s) acc2 hstep
  obtain ⟨hgetA, hcntA⟩ := complex_fold_other_preserves e s.subscription_id f A
    ([], m.window_managers) acc1 hA hfoldA
  have hwmA : dictGet2 acc1.2 s.subscription_id f = some wm := by
    unfold dictGet2
    rw [hgetA]
    exact hwm
  obtain ⟨wm', hget', hsz', hlen', hineq⟩ := match_complex_self_window acc1.2 e
    s f N wm ns₀ wmid hN1 huniq hwmA hsz hlen hmc
  obtain ⟨hgetB, hcntB⟩ := complex_fold_other_preserves e s.subscription_id f B
    acc2 (cns, wms') hB hfoldB
  have hgetFinal : dictGet wms' s.subscription_id = dictGet wmid s.subscription_id := by
    have h1 : dictGet (cns, wms').2 s.subscription_id =
        dictGet acc2.2 s.subscription_id := hgetB
    rw [hacc2] at h1
    exact h1
  refine ⟨wm', ?_, hsz', hlen', ?_⟩
  · show dictGet2 wms' s.subscription_id f = some wm'
    unfold dictGet2
    rw [hgetFinal]
    exact hget'
  · have hcnt2 : cns.countP (is_complex_notification_for s.subscription_id f) =
        ns₀.countP (is_complex_notification_for s.subscription_id f) := by
      have h1 : (cns, wms').1.countP
          (is_complex_notification_for s.subscription_id f) =
          acc2.1.countP (is_complex_notification_for s.subscription_id f) := hcntB
      rw [hacc2] at h1
      have h2 : acc1.1.countP
          (is_complex_notification_for s.subscription_id f) =
          ([] : List Notification).countP
            (is_complex_notification_for s.subscription_id f) := hcntA
      simp only [List.countP_nil] at h2
      simp only [List.countP_append, h2] at h1
      simpa using h1
    rw [hns, List.countP_append, hsimple0, hcnt2]
    simpa using hineq

theorem run_step_ok_elim (acc : List Notification × SubscriptionMatcher)
    (e : EcommerceEvent) (mid : List Notification × SubscriptionMatcher)
    (h : run_step acc e = Except.ok mid) :
    ∃ ns m₁, match_event acc.2 e = Except.ok (ns, m₁) ∧
      mid = (acc.1 ++ ns, m₁) := by
  unfold run_step at h
  rcases hm : match_event acc.2 e with e0 | ⟨ns, m₁⟩ <;> rw [hm] at h
  · exact Except.noConfusion h
  · simp only [Except.ok.injEq] at h
    exact ⟨ns, m₁, rfl, h.symm⟩

theorem run_fold_window_inv (A B : List (String × Subscription)) (k : String)
    (s : Subscription) (f : String) (N : Nat)
    (hA : ∀ p ∈ A, p.2.subscription_id ≠ s.subscription_id)
    (hB : ∀ p ∈ B, p.2.subscription_id ≠ s.subscription_id)
    (hN1 : 1 ≤ N)
    (huniq : s.conditions.countP
      (fun c => c.is_windowed && (c.field_name == f)) ≤ 1) :
    ∀ (es : List EcommerceEvent) (acc : List Notification)
      (m : SubscriptionMatcher) (wm : WindowManager)
      (out : List Notification × SubscriptionMatcher),
      m.complex_subscriptions = A ++ (k, s) :: B →
      dictGet2 m.window_managers s.subscription_id f = some wm →
      wm.window_size = N → wm.window.length < N →
      es.foldlM run_step (acc, m) = Except.ok out →
      N * out.1.countP (is_complex_notification_for s.subscription_id f) ≤
        N * acc.countP (is_complex_notification_for s.subscription_id f) +
          wm.window.length + es.countP (fun e2 => sampled s f e2) := by
  intro es
  induction es with
  | nil =>
      intro acc m wm out _ _ _ _ h
      have hao : (acc, m) = out := by
        simpa [pure, Except.pure, Except.ok.injEq] using h
      rw [← hao]
      simp only [List.countP_nil]
      omega
  | cons e es ih =>
      intro acc m wm out hreg hwm hsz hlen h
      rw [List.foldlM_cons] at h
      obtain ⟨mid, hstep, hrest⟩ := except_bind_ok_elim h
      obtain ⟨ns, m₁, hme, hmid⟩ := run_step_ok_elim (acc, m) e mid hstep
      obtain ⟨_, hreg₁, wm₁, hget₁, hsz₁, hlen₁, hineq₁⟩ :=
        match_event_window_step e m A B k s f N wm ns m₁ hreg hA hB hN1 huniq
          hwm hsz hlen hme
    -- continue with IH at mid = (acc ++ ns, m₁)
      subst hmid
      have hIH := ih (acc ++ ns) m₁ wm₁ out (by rw [hreg₁, hreg]) hget₁ hsz₁
        hlen₁ hrest
      rw [List.countP_append, Nat.mul_add] at hIH
      rw [List.countP_cons]
      omega

/-- C2 counterexample: a complex subscription that declares the same
windowed field twice shares one window manager between the two
conditions, so a single gate-passing sample (window size 1) emits two
`ComplexNotification`s for that field — more than once per `N = 1`
samples. -/
theorem claim2_counterexample :
    run_events exDupMatcher [exRatingEvent] =
      Except.ok
        ([⟨"D", "BD", NotificationBody.complexAgg "unknown" "max_rating" 5 1 true⟩,
          ⟨"D", "BD", NotificationBody.complexAgg "unknown" "max_rating" 5 1 true⟩],
          { exDupMatcher with
            window_managers := [("D", [("max_rating", ⟨1, "max", [], true⟩)])] }) ∧
    dictGet2 exDupMatcher.window_managers "D" "max_rating" =
      some ⟨1, "max", [], false⟩ ∧
    sampled exDupSub "max_rating" exRatingEvent = true ∧
    ¬ (1 * List.countP (is_complex_notification_for "D" "max_rating")
          [⟨"D", "BD", NotificationBody.complexAgg "unknown" "max_rating" 5 1 true⟩,
            ⟨"D", "BD", NotificationBody.complexAgg "unknown" "max_rating" 5 1 true⟩] ≤
        List.countP (fun e2 => sampled exDupSub "max_rating" e2)
          [exRatingEvent]) := by
  refine ⟨rfl, rfl, rfl, ?_⟩
  decide

/-- C2 amended: for a registered complex subscription `S` whose windowed
field `f` appears in at most one windowed condition, starting from an
empty window of size `N ≥ 1`, over any sequence of `match_event` calls
that all succeed, the number of `ComplexNotification`s emitted for
`(S, f)` times `N` never exceeds the number of events that pass `S`'s
sampling gate and yield a numeric value for `f`'s base field. -/
theorem claim2_amended_emission_rate (m : SubscriptionMatcher)
    (A B : List (String × Subscription)) (k : String) (s : Subscription)
    (f : String) (N : Nat) (wm : WindowManager)
    (es : List EcommerceEvent) (out : List Notification)
    (m' : SubscriptionMatcher)
    (hreg : m.complex_subscriptions = A ++ (k, s) :: B)
    (hA : ∀ p ∈ A, p.2.subscription_id ≠ s.subscription_id)
    (hB : ∀ p ∈ B, p.2.subscription_id ≠ s.subscription_id)
    (hN1 : 1 ≤ N)
    (huniq : s.conditions.countP
      (fun c => c.is_windowed && (c.field_name == f)) ≤ 1)
    (hwm : dictGet2 m.window_managers s.subscription_id f = some wm)
    (hsz : wm.window_size = N) (hempty : wm.window = [])
    (h : run_events m es = Except.ok (out, m')) :
    N * out.countP (is_complex_notification_for s.subscription_id f) ≤
      es.countP (fun e2 => sampled s f e2) := by
  unfold run_events at h
  have hlen : wm.window.length < N := by
    rw [hempty]
    simpa using hN1
  have := run_fold_window_inv A B k s f N hA hB hN1 huniq es [] m wm (out, m')
    hreg hwm hsz hlen h
  simpa [hempty] using this

/-- C2 amended witness: one rating event sampled into an empty size-2
`max` window emits nothing yet, respecting the rate bound. -/
theorem claim2_amended_emission_rate_witness :
    2 * List.countP (is_complex_notification_for "T" "max_rating")
        ([] : List Notification) ≤
      List.countP (fun e2 => sampled exRateSub "max_rating" e2)
        [exRatingEvent] :=
  claim2_amended_emission_rate exRateMatcher [] [] "T" exRateSub "max_rating"
    2 ⟨2, "max", [], false⟩ [exRatingEvent] []
    { exRateMatcher with
      window_managers := [("T", [("max_rating", ⟨2, "max", [5], false⟩)])] }
    rfl (by intro p hp; simp at hp) (by intro p hp; simp at hp)
    (by decide) (by decide) rfl rfl rfl (by rfl)

end EBS
